import Mathlib

/-!
Verification model of the miipa-backend graph aggregation and ingestion
engine.  The Neo4j property graph is embedded as a record of node lists and
edge lists; each Cypher query of the services is translated clause by clause
(`OPTIONAL MATCH` produces a single null row when nothing matches, chained
`OPTIONAL MATCH`es multiply rows, aggregation runs over the resulting row
set).  Numeric graph values are modelled as exact rationals; the JavaScript
boundary rounding (`Math.round`) is Mathlib's `round` (round half towards
positive infinity, identical semantics).
-/

namespace MiipaModel

/-- ASCII lower-casing of one character, as JS `toLowerCase` acts on the
repository's data (all names are ASCII). -/
def lowerChar (c : Char) : Char :=
  if 'A' ≤ c ∧ c ≤ 'Z' then Char.ofNat (c.toNat + 32) else c

/-- Model of JS `String.prototype.toLowerCase`. -/
def lowerStr (s : String) : String :=
  ⟨s.data.map lowerChar⟩

/-- Helper for substring containment. -/
def infixAux (needle : List Char) : List Char → Bool
  | [] => needle.isEmpty
  | c :: cs => needle.isPrefixOf (c :: cs) || infixAux needle cs

/-- Model of JS `String.prototype.includes`. -/
def strContains (hay needle : String) : Bool :=
  infixAux needle.data hay.data

/-- Model of the JS idiom `x ? Math.round(x) : 0` applied to a numeric value. -/
def roundOrZero (q : ℚ) : ℤ :=
  if q == 0 then 0 else round q

/-- `OPTIONAL MATCH` row semantics: when nothing matches, a single row with a
null binding survives; otherwise one row per match. -/
def optRows (l : List α) : List (Option α) :=
  if l.isEmpty then [none] else l.map some

/-- Cartesian product of row sets, as produced by chaining two `MATCH`
clauses. -/
def crossProd (l₁ : List α) (l₂ : List β) : List (α × β) :=
  l₁.flatMap fun a => l₂.map fun b => (a, b)

/-- `collect(DISTINCT ...)` keeps the first occurrence of every value. -/
def dedupAux [BEq α] (seen : List α) : List α → List α
  | [] => []
  | x :: xs => if seen.contains x then dedupAux seen xs else x :: dedupAux (x :: seen) xs

/-- Deduplication keeping first occurrences, for `DISTINCT` aggregation. -/
def dedupKeepFirst [BEq α] (l : List α) : List α :=
  dedupAux [] l

/-- Stable insertion of `x` into `l`: `x` goes after every element `y` with
`le y x`.  Models `ORDER BY`, whose ties keep store order. -/
def insertOrd (le : α → α → Bool) (x : α) : List α → List α
  | [] => [x]
  | y :: ys => if le y x then y :: insertOrd le x ys else x :: y :: ys

/-- Stable sort by the may-precede predicate `le`. -/
def sortOrd (le : α → α → Bool) (l : List α) : List α :=
  l.foldl (fun acc x => insertOrd le x acc) []

/-! ### Graph data model (§3 of the spec, node and edge shapes of seed-neo4j.ts
and the import queries) -/

structure IndicationNode where
  id : String
  name : String
  aliases : List String
  oncotreeCode : String
  source : String
deriving DecidableEq, Repr

structure MutationNode where
  id : String
  name : String
  gene : String
  alteration : String
  oncogenic : String
  source : String
deriving DecidableEq, Repr

structure GeneNode where
  hugoSymbol : String
  id : String
  name : String
  source : String
deriving DecidableEq, Repr

structure TherapyNode where
  id : String
  name : String
  mechanism : String
  targets : List String
  approvalStatus : String
  source : String
  brandNames : List String
deriving DecidableEq, Repr

structure DiagnosticNode where
  id : String
  name : String
  dtype : String
  invasiveness : String
deriving DecidableEq, Repr

/-- An EpidemiologyMetric node together with its `MEASURED_BY` origin and the
name of its `FOR_REGION` target (each metric has exactly one of each). -/
structure EpidemiologyMetricNode where
  id : String
  mtype : String
  value : ℚ
  unit : String
  year : Int
  source : String
  indicationId : String
  region : String
deriving DecidableEq, Repr

/-- A MutationPrevalence node with its `HAS_PREVALENCE`, `IN_INDICATION` and
`FOR_REGION` links stored as foreign keys. -/
structure MutationPrevalenceNode where
  id : String
  mutationId : String
  indicationId : String
  percentageOfPatients : ℚ
  year : Int
  source : String
  region : String
deriving DecidableEq, Repr

structure ActionabilityNode where
  mutationId : String
  level : String
  evidence : String
deriving DecidableEq, Repr

structure TherapeuticActionabilityNode where
  mutationId : String
  indicationId : Option String
  level : String
  drugs : Option (List String)
  fdaApproved : Bool
deriving DecidableEq, Repr

/-- The property graph: node lists per label, a Region name registry, and
edge lists (pairs of keys). -/
structure GraphState where
  indications : List IndicationNode
  mutations : List MutationNode
  genes : List GeneNode
  therapies : List TherapyNode
  diagnostics : List DiagnosticNode
  regions : List String
  epiMetrics : List EpidemiologyMetricNode
  mutPrevs : List MutationPrevalenceNode
  actionabilities : List ActionabilityNode
  tActionabilities : List TherapeuticActionabilityNode
  inGene : List (String × String)
  assocWith : List (String × String)
  hasTherapy : List (String × String)
  hasDiagnostic : List (String × String)
deriving DecidableEq, Repr

/-! ### indications.service.ts — getTopIndications -/

inductive IndicationSortBy | prevalence | incidence | alphabetical
deriving DecidableEq, Repr

inductive SortOrder | asc | desc
deriving DecidableEq, Repr

/-- Matches of `(i)-[:MEASURED_BY]->(ep {type:'PREVALENCE'})-[:FOR_REGION]->(rp)
WHERE rp.name IN $regions`. -/
def prevMetricsOf (s : GraphState) (indId : String) (regions : List String) :
    List EpidemiologyMetricNode :=
  s.epiMetrics.filter fun e =>
    e.indicationId == indId && e.mtype == "PREVALENCE" && regions.contains e.region

/-- Matches of the INCIDENCE variant of the same pattern. -/
def incMetricsOf (s : GraphState) (indId : String) (regions : List String) :
    List EpidemiologyMetricNode :=
  s.epiMetrics.filter fun e =>
    e.indicationId == indId && e.mtype == "INCIDENCE" && regions.contains e.region

/-- One aggregated row of the getTopIndications query, before `ORDER BY`. -/
structure IndicationRow where
  ind : IndicationNode
  totalPrevalence : ℚ
  totalIncidence : ℚ
deriving DecidableEq, Repr

/-- Row semantics of the getTopIndications Cypher: the two `OPTIONAL MATCH`
clauses are chained, so the row set is the cross product of the prevalence
matches and the incidence matches, and each `sum` ranges over that product. -/
def indicationRow (s : GraphState) (regions : List String) (i : IndicationNode) :
    IndicationRow :=
  let rows := crossProd (optRows (prevMetricsOf s i.id regions))
    (optRows (incMetricsOf s i.id regions))
  { ind := i
    totalPrevalence := (rows.map fun r => ((r.1.map (·.value)).getD 0)).sum
    totalIncidence := (rows.map fun r => ((r.2.map (·.value)).getD 0)).sum }

/-- The `ORDER BY` comparator of getTopIndications: primary key only, no
tie-break clause. -/
def indicationLe (sortBy : IndicationSortBy) (sortOrder : SortOrder)
    (a b : IndicationRow) : Bool :=
  match sortBy, sortOrder with
  | .prevalence, .desc => decide (b.totalPrevalence ≤ a.totalPrevalence)
  | .prevalence, .asc => decide (a.totalPrevalence ≤ b.totalPrevalence)
  | .incidence, .desc => decide (b.totalIncidence ≤ a.totalIncidence)
  | .incidence, .asc => decide (a.totalIncidence ≤ b.totalIncidence)
  | .alphabetical, .desc => decide (b.ind.name ≤ a.ind.name)
  | .alphabetical, .asc => decide (a.ind.name ≤ b.ind.name)

structure IndicationSummary where
  id : String
  name : String
  rank : Nat
  totalPrevalence : ℤ
  totalIncidence : ℤ
deriving DecidableEq, Repr

/-- Index-carrying map, for the 1-based `rank: idx + 1` assignment. -/
def rankMap (f : Nat → α → β) : Nat → List α → List β
  | _, [] => []
  | n, x :: xs => f n x :: rankMap f (n + 1) xs

/-- IndicationsService.getTopIndications: aggregate per indication, sort,
limit, then map to the JS response (rounding at the boundary, `x ? round : 0`). -/
def getTopIndications (s : GraphState) (limit : Nat) (regions : List String)
    (sortBy : IndicationSortBy) (sortOrder : SortOrder) : List IndicationSummary :=
  let rows := s.indications.map (indicationRow s regions)
  let sorted := (sortOrd (indicationLe sortBy sortOrder) rows).take limit
  rankMap (fun idx r =>
    { id := r.ind.id
      name := r.ind.name
      rank := idx + 1
      totalPrevalence := roundOrZero r.totalPrevalence
      totalIncidence := roundOrZero r.totalIncidence }) 0 sorted

/-! ### mutations.service.ts — getAllMutations -/

inductive MutationSortBy | actionability | alphabetical | prevalence | incidence
deriving DecidableEq, Repr

/-- Matches of `MATCH (m:Mutation)-[:IN_GENE]->(g:Gene)`: one row per linked
(mutation, gene) pair; a mutation without an `IN_GENE` edge yields no row. -/
def mutationGenePairs (s : GraphState) : List (MutationNode × GeneNode) :=
  s.mutations.flatMap fun m =>
    (s.genes.filter fun g => s.inGene.contains (m.id, g.hugoSymbol)).map fun g => (m, g)

/-- Matches of `(m)-[:HAS_THERAPEUTIC_ACTIONABILITY]->(ta)`. -/
def taRowsOf (s : GraphState) (mId : String) : List TherapeuticActionabilityNode :=
  s.tActionabilities.filter fun ta => ta.mutationId == mId

/-- Matches of `(m)-[:HAS_PREVALENCE]->(mp)-[:IN_INDICATION]->(i:Indication)`. -/
def mutPrevRowsOf (s : GraphState) (mId : String) :
    List (MutationPrevalenceNode × IndicationNode) :=
  (s.mutPrevs.filter fun mp => mp.mutationId == mId).flatMap fun mp =>
    (s.indications.filter fun i => i.id == mp.indicationId).map fun i => (mp, i)

/-- One aggregated row of the getAllMutations query, before `ORDER BY`. -/
structure MutationRow where
  m : MutationNode
  g : GeneNode
  actionabilityCount : Nat
  estimatedPatients : ℚ
  estimatedNewCases : ℚ
deriving DecidableEq, Repr

/-- Row semantics of the getAllMutations Cypher: four chained `OPTIONAL
MATCH`es expand into the cross product of actionability rows and, per
prevalence link, the product of that indication's prevalence and incidence
metric rows; `sum(ep.value * mp.percentageOfPatients / 100)` ranges over
every surviving row, while `count(DISTINCT ta)` dedups the actionability
nodes. -/
def mutationRow (s : GraphState) (regions : List String) (m : MutationNode)
    (g : GeneNode) : MutationRow :=
  let mpRows :
      List (Option (MutationPrevalenceNode × IndicationNode) ×
        Option EpidemiologyMetricNode × Option EpidemiologyMetricNode) :=
    (optRows (mutPrevRowsOf s m.id)).flatMap fun o =>
      match o with
      | none => [(none, none, none)]
      | some (mp, i) =>
        (crossProd (optRows (prevMetricsOf s i.id regions))
          (optRows (incMetricsOf s i.id regions))).map fun pr => (some (mp, i), pr.1, pr.2)
  let rows := crossProd (optRows (taRowsOf s m.id)) mpRows
  let pat : ℚ := (rows.map fun r =>
    match r.2.1, r.2.2.1 with
    | some mpi, some ep => ep.value * mpi.1.percentageOfPatients / 100
    | _, _ => 0).sum
  let newc : ℚ := (rows.map fun r =>
    match r.2.1, r.2.2.2 with
    | some mpi, some ei => ei.value * mpi.1.percentageOfPatients / 100
    | _, _ => 0).sum
  { m := m
    g := g
    actionabilityCount := (taRowsOf s m.id).length
    estimatedPatients := pat
    estimatedNewCases := newc }

/-- Lexicographic may-precede test on a rational primary key with the
`m.name ASC` tie-break. -/
def lexLeQ (ka kb : ℚ) (na nb : String) : Bool :=
  decide (ka < kb) || (ka == kb && decide (na ≤ nb))

/-- Lexicographic may-precede test on a count primary key with the
`m.name ASC` tie-break. -/
def lexLeN (ka kb : Nat) (na nb : String) : Bool :=
  decide (ka < kb) || (ka == kb && decide (na ≤ nb))

/-- The `ORDER BY` comparator of getAllMutations: every numeric primary key
carries the `m.name ASC` tie-break; the alphabetical key has none. -/
def mutationLe (sortBy : MutationSortBy) (sortOrder : SortOrder)
    (a b : MutationRow) : Bool :=
  match sortBy, sortOrder with
  | .alphabetical, .asc => decide (a.m.name ≤ b.m.name)
  | .alphabetical, .desc => decide (b.m.name ≤ a.m.name)
  | .prevalence, .asc => lexLeQ a.estimatedPatients b.estimatedPatients a.m.name b.m.name
  | .prevalence, .desc => lexLeQ b.estimatedPatients a.estimatedPatients a.m.name b.m.name
  | .incidence, .asc => lexLeQ a.estimatedNewCases b.estimatedNewCases a.m.name b.m.name
  | .incidence, .desc => lexLeQ b.estimatedNewCases a.estimatedNewCases a.m.name b.m.name
  | .actionability, .asc => lexLeN a.actionabilityCount b.actionabilityCount a.m.name b.m.name
  | .actionability, .desc => lexLeN b.actionabilityCount a.actionabilityCount a.m.name b.m.name

structure MutationSummary where
  id : String
  name : String
  gene : String
  alteration : String
  oncogenic : String
  actionabilityCount : Nat
  estimatedPatients : ℤ
  estimatedNewCases : ℤ
deriving DecidableEq, Repr

/-- The aggregated, `ORDER BY`-sorted and `LIMIT`-truncated row list of
getAllMutations, before the JS response mapping. -/
def mutationRowsSorted (s : GraphState) (limit : Nat) (sortBy : MutationSortBy)
    (sortOrder : SortOrder) (regions : List String) : List MutationRow :=
  (sortOrd (mutationLe sortBy sortOrder)
    ((mutationGenePairs s).map fun p => mutationRow s regions p.1 p.2)).take limit

/-- Equality of the primary `ORDER BY` key of two getAllMutations rows. -/
def mutationPrimaryEq (sortBy : MutationSortBy) (a b : MutationRow) : Prop :=
  match sortBy with
  | .prevalence => a.estimatedPatients = b.estimatedPatients
  | .incidence => a.estimatedNewCases = b.estimatedNewCases
  | .actionability => a.actionabilityCount = b.actionabilityCount
  | .alphabetical => True

/-- MutationsService.getAllMutations: aggregate per (mutation, gene) pair,
sort, limit, and map to the JS response (`Math.round` at the boundary,
`m.oncogenic || 'Unknown'`). -/
def getAllMutations (s : GraphState) (limit : Nat) (sortBy : MutationSortBy)
    (sortOrder : SortOrder) (regions : List String) : List MutationSummary :=
  (mutationRowsSorted s limit sortBy sortOrder regions).map fun r =>
    { id := r.m.id
      name := r.m.name
      gene := r.g.hugoSymbol
      alteration := r.m.alteration
      oncogenic := if r.m.oncogenic == "" then "Unknown" else r.m.oncogenic
      actionabilityCount := r.actionabilityCount
      estimatedPatients := round r.estimatedPatients
      estimatedNewCases := round r.estimatedNewCases }

/-! ### miipa.service.ts — getIndicationMiipa and getMutationMiipa -/

/-- Matches of `(i)-[:HAS_THERAPY]->(t:Therapy)`. -/
def therapiesOf (s : GraphState) (indId : String) : List TherapyNode :=
  (s.hasTherapy.filter fun e => e.1 == indId).flatMap fun e =>
    s.therapies.filter fun t => t.id == e.2

/-- Matches of `(i)-[:HAS_DIAGNOSTIC]->(d:DiagnosticModality)`. -/
def diagnosticsOf (s : GraphState) (indId : String) : List DiagnosticNode :=
  (s.hasDiagnostic.filter fun e => e.1 == indId).flatMap fun e =>
    s.diagnostics.filter fun d => d.id == e.2

/-- Matches of `(i)-[:MEASURED_BY]->(e)-[:FOR_REGION]->(r) WHERE r.name IN
$regions`, every metric type. -/
def epiRegionRowsOf (s : GraphState) (indId : String) (regions : List String) :
    List EpidemiologyMetricNode :=
  s.epiMetrics.filter fun e => e.indicationId == indId && regions.contains e.region

/-- The code's region-filtered prevalence total of one indication:
`sum(DISTINCT epPrev.value)` adds each distinct value once. -/
def indicationPrevalenceTotal (s : GraphState) (indId : String)
    (regions : List String) : ℚ :=
  (dedupKeepFirst ((prevMetricsOf s indId regions).map (·.value))).sum

/-- The code's region-filtered incidence total of one indication. -/
def indicationIncidenceTotal (s : GraphState) (indId : String)
    (regions : List String) : ℚ :=
  (dedupKeepFirst ((incMetricsOf s indId regions).map (·.value))).sum

/-- One mutation entry of the indication dossier response. -/
structure IndMutEntry where
  m : MutationNode
  gene : String
  percentageOfPatients : Option ℚ
  estimatedPrevalencePatients : ℤ
  estimatedIncidencePatients : ℤ
deriving DecidableEq, Repr

structure IndicationDossier where
  indication : IndicationNode
  mutations : List IndMutEntry
  epidemiology : List (EpidemiologyMetricNode × Option String)
  therapies : List (TherapyNode × Option String)
  diagnostics : List (DiagnosticNode × Option String)
deriving DecidableEq, Repr

/-- The mutation-candidate filter of the dossier query: reachable from the
indication by direct association, by therapeutic actionability scoped to it,
or by a prevalence record in it; only (mutation, gene) pairs qualify. -/
def indMutCandidates (s : GraphState) (i : IndicationNode) :
    List (MutationNode × GeneNode) :=
  (mutationGenePairs s).filter fun p =>
    s.assocWith.contains (p.1.id, i.id)
    || (s.tActionabilities.any fun ta =>
          ta.mutationId == p.1.id && ta.indicationId == some i.id)
    || (s.mutPrevs.any fun mp => mp.mutationId == p.1.id && mp.indicationId == i.id)

/-- Matches of `(m)-[:HAS_PREVALENCE]->(mp)-[:IN_INDICATION]->(i)` with both
ends bound. -/
def mpLinksOf (s : GraphState) (mId indId : String) : List MutationPrevalenceNode :=
  s.mutPrevs.filter fun mp => mp.mutationId == mId && mp.indicationId == indId

/-- One output row of the dossier mutation query for a fixed (m, g, mp)
group: the CASE estimates with their `totalPrevalence > 0` guards, then the
JS mapping (`pct ? pct : null`, `est ? Math.round(est) : 0`). -/
def indMutEntry (s : GraphState) (i : IndicationNode) (regions : List String)
    (m : MutationNode) (g : GeneNode) (mpOpt : Option MutationPrevalenceNode) :
    IndMutEntry :=
  let tp := indicationPrevalenceTotal s i.id regions
  let ti := indicationIncidenceTotal s i.id regions
  let estP : ℚ := match mpOpt with
    | some mp => if tp > 0 then mp.percentageOfPatients * tp / 100 else 0
    | none => 0
  let estI : ℚ := match mpOpt with
    | some mp => if ti > 0 then mp.percentageOfPatients * ti / 100 else 0
    | none => 0
  { m := m
    gene := if g.hugoSymbol == "" then g.name else g.hugoSymbol
    percentageOfPatients := match mpOpt with
      | some mp => if mp.percentageOfPatients == 0 then none else some mp.percentageOfPatients
      | none => none
    estimatedPrevalencePatients := roundOrZero estP
    estimatedIncidencePatients := roundOrZero estI }

/-- MiipaService.getIndicationMiipa: null when no Indication node has the id;
otherwise the dossier composed from the two queries (the first query's three
`OPTIONAL MATCH`es cross-multiply before `collect(DISTINCT ...)`). -/
def getIndicationMiipa (s : GraphState) (indicationId : String)
    (regions : List String) : Option IndicationDossier :=
  match s.indications.find? fun i => i.id == indicationId with
  | none => none
  | some i =>
    let rows := crossProd (optRows (therapiesOf s i.id))
      (crossProd (optRows (diagnosticsOf s i.id))
        (optRows (epiRegionRowsOf s i.id regions)))
    some
      { indication := i
        mutations := (indMutCandidates s i).flatMap fun p =>
          (optRows (mpLinksOf s p.1.id i.id)).map fun mpOpt =>
            indMutEntry s i regions p.1 p.2 mpOpt
        epidemiology := (dedupKeepFirst (rows.map fun r => r.2.2)).filterMap
          fun eo => eo.map fun e => (e, some e.region)
        therapies := (dedupKeepFirst (rows.map fun r => (r.1, r.2.2))).filterMap
          fun pr => pr.1.map fun t => (t, pr.2.map (·.region))
        diagnostics := (dedupKeepFirst (rows.map fun r => (r.2.1, r.2.2))).filterMap
          fun pr => pr.1.map fun d => (d, pr.2.map (·.region)) }

/-- Matches of `(m)-[:ASSOCIATED_WITH]->(i:Indication)`. -/
def assocIndicationsOf (s : GraphState) (mId : String) : List IndicationNode :=
  (s.assocWith.filter fun e => e.1 == mId).flatMap fun e =>
    s.indications.filter fun i => i.id == e.2

/-- Matches of `(m)-[:HAS_ACTIONABILITY]->(a:Actionability)`. -/
def actsOf (s : GraphState) (mId : String) : List ActionabilityNode :=
  s.actionabilities.filter fun a => a.mutationId == mId

/-- One resolved therapy row of the mutation dossier. -/
structure MutTherapyOut where
  drugName : String
  therapy : Option TherapyNode
  indication : Option String
  level : String
  fdaApproved : Bool
deriving DecidableEq, Repr

structure MutationDossier where
  mutation : MutationNode
  gene : GeneNode
  indications : List IndicationNode
  epidemiology : List (EpidemiologyMetricNode × Option String)
  actionability : List ActionabilityNode
  therapies : List MutTherapyOut
  diagnostics : List (DiagnosticNode × Option String)
deriving DecidableEq, Repr

/-- The therapy query of the mutation dossier: therapeutic-actionability rows
whose `FOR_INDICATION` target exists and whose drug list is non-null, unwound
per drug name and optionally matched to a Therapy by name or brand name, then
`RETURN DISTINCT`. -/
def mutTherapies (s : GraphState) (mId : String) : List MutTherapyOut :=
  let raw := (s.tActionabilities.filter fun ta => ta.mutationId == mId).flatMap
    fun ta =>
      match ta.indicationId, ta.drugs with
      | some iid, some drugs =>
        (s.indications.filter fun i => i.id == iid).flatMap fun i =>
          drugs.flatMap fun dn =>
            (optRows (s.therapies.filter fun t =>
              t.name == dn || t.brandNames.contains dn)).map fun tOpt =>
              (dn, tOpt, some i.name, ta.level, ta.fdaApproved)
      | _, _ => []
  (dedupKeepFirst raw).map fun r =>
    { drugName := r.1
      therapy := r.2.1
      indication := r.2.2.1
      level := r.2.2.2.1
      fdaApproved := r.2.2.2.2 }

/-- MiipaService.getMutationMiipa: the base `MATCH (m {id})-[:IN_GENE]->(g)`
requires an IN_GENE edge, so a gene-less mutation yields no record and the
service returns null; the four `OPTIONAL MATCH`es expand per associated
indication. -/
def getMutationMiipa (s : GraphState) (mutationId : String)
    (regions : List String) : Option MutationDossier :=
  let pairs := (s.mutations.filter fun m => m.id == mutationId).flatMap fun m =>
    (s.genes.filter fun g => s.inGene.contains (m.id, g.hugoSymbol)).map fun g => (m, g)
  match pairs with
  | [] => none
  | (m, g) :: _ =>
    let rows := (optRows (assocIndicationsOf s m.id)).flatMap fun iOpt =>
      (optRows (match iOpt with
        | none => []
        | some i => epiRegionRowsOf s i.id regions)).flatMap fun eOpt =>
        (optRows (actsOf s m.id)).flatMap fun aOpt =>
          (optRows (match iOpt with
            | none => []
            | some i => diagnosticsOf s i.id)).map fun dOpt =>
            (iOpt, eOpt, aOpt, dOpt)
    some
      { mutation := m
        gene := g
        indications := (dedupKeepFirst (rows.map fun r => r.1)).filterMap id
        epidemiology := (dedupKeepFirst (rows.map fun r => r.2.1)).filterMap
          fun eo => eo.map fun e => (e, some e.region)
        actionability := (dedupKeepFirst (rows.map fun r => r.2.2.1)).filterMap id
        therapies := mutTherapies s m.id
        diagnostics := (dedupKeepFirst (rows.map fun r => (r.2.2.2, r.1))).filterMap
          fun pr => pr.1.map fun d => (d, pr.2.map (·.name)) }

/-! ### indication-research.service.ts — ingestion (importResearchedIndication) -/

/-- Collapse runs of dashes, second half of the JS
`replace(/[^a-z0-9]+/g, '-')` idiom. -/
def collapseDash : List Char → List Char
  | [] => []
  | [c] => [c]
  | a :: b :: rest =>
    if a == '-' && b == '-' then collapseDash (b :: rest)
    else a :: collapseDash (b :: rest)

/-- Character kept by the slug regex. -/
def slugKeep (c : Char) : Bool :=
  ('a' ≤ c && c ≤ 'z') || ('0' ≤ c && c ≤ '9')

/-- Model of `name.toLowerCase().replace(/[^a-z0-9]+/g, '-')`. -/
def slugify (s : String) : String :=
  ⟨collapseDash ((lowerStr s).data.map fun c => if slugKeep c then c else '-')⟩

structure ResearchedIndication where
  id : String
  name : String
  aliases : List String
  oncotreeCode : String
  source : String
deriving DecidableEq, Repr

structure ResearchedMutation where
  id : String
  gene : String
  name : String
  alteration : String
  oncogenic : String
  source : String
  percentage : ℚ
deriving DecidableEq, Repr

structure ResearchedTherapy where
  name : String
  mechanism : String
  targets : List String
deriving DecidableEq, Repr

structure EpidemiologyEntry where
  id : String
  indicationId : String
  region : String
  mtype : String
  value : ℚ
  unit : String
  year : Int
  source : String
deriving DecidableEq, Repr

structure MutationPrevalenceEntry where
  id : String
  mutationId : String
  indicationId : String
  percentageOfPatients : ℚ
  region : String
  source : String
  year : Int
deriving DecidableEq, Repr

/-- The researched bundle produced for one catalog entry. -/
structure ResearchBundle where
  indication : ResearchedIndication
  mutations : List ResearchedMutation
  therapies : List ResearchedTherapy
  epidemiology : List EpidemiologyEntry
  mutationPrevalence : List MutationPrevalenceEntry
deriving DecidableEq, Repr

/-- `MERGE` by key followed by unconditional `SET` of every property: update
every node carrying the key in place, or append a fresh node. -/
def upsertBy (key : α → String) (k : String) (v : α) (l : List α) : List α :=
  if l.any fun x => key x == k then l.map fun x => if key x == k then v else x
  else l ++ [v]

/-- The Indication node written by the import (`MERGE (i {id}) SET ...`). -/
def indicationTarget (d : ResearchedIndication) : IndicationNode :=
  { id := d.id, name := d.name, aliases := d.aliases
    oncotreeCode := d.oncotreeCode, source := d.source }

/-- The Mutation node written by the import. -/
def mutationTarget (rm : ResearchedMutation) : MutationNode :=
  { id := rm.id, name := rm.name, gene := rm.gene, alteration := rm.alteration
    oncogenic := rm.oncogenic, source := rm.source }

/-- The Gene node written on first sight
(`MERGE (g {hugoSymbol}) ON CREATE SET ...`). -/
def geneTarget (g : String) : GeneNode :=
  { hugoSymbol := g, id := "gene-" ++ lowerStr g, name := g, source := "Deep_Research" }

/-- `MERGE` with `ON CREATE SET` only: existing nodes are left untouched. -/
def mergeGene (l : List GeneNode) (g : String) : List GeneNode :=
  if l.any fun x => x.hugoSymbol == g then l else l ++ [geneTarget g]

/-- `MERGE` of a relationship: add it when absent. -/
def mergeEdge (l : List (String × String)) (e : String × String) :
    List (String × String) :=
  if l.contains e then l else l ++ [e]

/-- `MERGE (r:Region {name})`: create the Region node when absent. -/
def mergeRegion (l : List String) (r : String) : List String :=
  if l.contains r then l else l ++ [r]

/-- One iteration of the mutation import query: upsert the mutation, merge
the gene (create-only), merge the IN_GENE edge, and merge ASSOCIATED_WITH
only when the `MATCH (i {id})` clause finds the indication. -/
def importMutationStep (s : GraphState) (indId : String)
    (rm : ResearchedMutation) : GraphState :=
  { s with
    mutations := upsertBy (·.id) rm.id (mutationTarget rm) s.mutations
    genes := mergeGene s.genes rm.gene
    inGene := mergeEdge s.inGene (rm.id, rm.gene)
    assocWith :=
      if s.indications.any fun i => i.id == indId then
        mergeEdge s.assocWith (rm.id, indId)
      else s.assocWith }

/-- The Therapy node written by the import; the id is derived from the name
exactly as indication ids are. -/
def therapyTarget (t : ResearchedTherapy) : TherapyNode :=
  { id := "therapy-" ++ slugify t.name, name := t.name, mechanism := t.mechanism
    targets := t.targets, approvalStatus := "APPROVED", source := "Deep_Research"
    brandNames := [] }

/-- One iteration of the therapy import query. -/
def importTherapyStep (s : GraphState) (indId : String) (t : ResearchedTherapy) :
    GraphState :=
  { s with
    therapies := upsertBy (·.id) ("therapy-" ++ slugify t.name) (therapyTarget t)
      s.therapies
    hasTherapy :=
      if s.indications.any fun i => i.id == indId then
        mergeEdge s.hasTherapy (indId, "therapy-" ++ slugify t.name)
      else s.hasTherapy }

/-- One iteration of the epidemiology import query: both `MATCH` clauses must
find their node — the Region is matched, never created here — otherwise the
`CREATE` does not run and the entry is silently dropped. -/
def importEpiStep (s : GraphState) (e : EpidemiologyEntry) : GraphState :=
  if (s.indications.any fun i => i.id == e.indicationId) && s.regions.contains e.region
  then
    { s with epiMetrics := s.epiMetrics ++
        [{ id := e.id, mtype := e.mtype, value := e.value, unit := e.unit
           year := e.year, source := e.source, indicationId := e.indicationId
           region := e.region }] }
  else s

/-- One iteration of the mutation-prevalence import query: the mutation and
indication are matched, the Region is lazily `MERGE`d, and a fresh
MutationPrevalence node is appended. -/
def importMpStep (s : GraphState) (p : MutationPrevalenceEntry) : GraphState :=
  if (s.mutations.any fun m => m.id == p.mutationId)
      && (s.indications.any fun i => i.id == p.indicationId) then
    { s with
      regions := mergeRegion s.regions p.region
      mutPrevs := s.mutPrevs ++
        [{ id := p.id, mutationId := p.mutationId, indicationId := p.indicationId
           percentageOfPatients := p.percentageOfPatients, year := p.year
           source := p.source, region := p.region }] }
  else s

/-- Stage 1 of the import: `MERGE (i:Indication {id}) SET ...`. -/
def importIndication (s : GraphState) (d : ResearchedIndication) : GraphState :=
  { s with indications := upsertBy (·.id) d.id (indicationTarget d) s.indications }

/-- Stage 2: the mutation import loop. -/
def importMutations (s : GraphState) (indId : String)
    (ms : List ResearchedMutation) : GraphState :=
  ms.foldl (fun st rm => importMutationStep st indId rm) s

/-- Stage 3: the therapy import loop. -/
def importTherapies (s : GraphState) (indId : String)
    (ts : List ResearchedTherapy) : GraphState :=
  ts.foldl (fun st t => importTherapyStep st indId t) s

/-- Stage 4: the epidemiology import loop. -/
def importEpis (s : GraphState) (es : List EpidemiologyEntry) : GraphState :=
  es.foldl importEpiStep s

/-- Stage 5: the mutation-prevalence import loop. -/
def importMps (s : GraphState) (ps : List MutationPrevalenceEntry) : GraphState :=
  ps.foldl importMpStep s

/-- IndicationResearchService.importResearchedIndication: upsert the
indication, then fold the mutation, therapy, epidemiology and
mutation-prevalence import queries in source order. -/
def importResearchedIndication (s : GraphState) (b : ResearchBundle) : GraphState :=
  importMps
    (importEpis
      (importTherapies
        (importMutations (importIndication s b.indication) b.indication.id b.mutations)
        b.indication.id b.therapies)
      b.epidemiology)
    b.mutationPrevalence

/-! ### indication-research.service.ts — Known-Entity Catalog and discovery -/

structure CatalogEntry where
  name : String
  aliases : List String
  oncotree : String
deriving DecidableEq, Repr

/-- The static KNOWN_ONCOLOGY_INDICATIONS registry. -/
def KNOWN_ONCOLOGY_INDICATIONS : List CatalogEntry := [
  ⟨"Non-Small Cell Lung Cancer", ["NSCLC", "Lung Adenocarcinoma", "Lung Squamous Cell Carcinoma"], "NSCLC"⟩,
  ⟨"Small Cell Lung Cancer", ["SCLC"], "SCLC"⟩,
  ⟨"Breast Cancer", ["Breast Carcinoma", "Invasive Breast Cancer"], "BREAST"⟩,
  ⟨"Triple Negative Breast Cancer", ["TNBC"], "TNBC"⟩,
  ⟨"HER2+ Breast Cancer", ["HER2 Positive Breast Cancer"], "BRCA"⟩,
  ⟨"Colorectal Cancer", ["CRC", "Colon Cancer", "Rectal Cancer"], "CRC"⟩,
  ⟨"Melanoma", ["Cutaneous Melanoma", "Malignant Melanoma"], "MEL"⟩,
  ⟨"Uveal Melanoma", ["Ocular Melanoma", "Eye Melanoma"], "UM"⟩,
  ⟨"Prostate Cancer", ["Prostate Adenocarcinoma", "Castration-Resistant Prostate Cancer", "CRPC"], "PRAD"⟩,
  ⟨"Ovarian Cancer", ["Ovarian Carcinoma", "High-Grade Serous Ovarian Cancer"], "OV"⟩,
  ⟨"Pancreatic Cancer", ["Pancreatic Adenocarcinoma", "PDAC"], "PAAD"⟩,
  ⟨"Gastric Cancer", ["Stomach Cancer", "Gastric Adenocarcinoma"], "STAD"⟩,
  ⟨"Esophageal Cancer", ["Esophageal Adenocarcinoma", "Esophageal Squamous Cell Carcinoma"], "ESCA"⟩,
  ⟨"Hepatocellular Carcinoma", ["HCC", "Liver Cancer", "Primary Liver Cancer"], "HCC"⟩,
  ⟨"Cholangiocarcinoma", ["Bile Duct Cancer", "Intrahepatic Cholangiocarcinoma"], "CHOL"⟩,
  ⟨"Renal Cell Carcinoma", ["RCC", "Kidney Cancer", "Clear Cell RCC"], "RCC"⟩,
  ⟨"Bladder Cancer", ["Urothelial Carcinoma", "Transitional Cell Carcinoma"], "BLCA"⟩,
  ⟨"Head and Neck Cancer", ["HNSCC", "Head and Neck Squamous Cell Carcinoma"], "HNSC"⟩,
  ⟨"Thyroid Cancer", ["Papillary Thyroid Cancer", "Follicular Thyroid Cancer", "Medullary Thyroid Cancer"], "THCA"⟩,
  ⟨"Anaplastic Thyroid Cancer", ["ATC", "Undifferentiated Thyroid Cancer"], "THAP"⟩,
  ⟨"Glioblastoma", ["GBM", "Glioblastoma Multiforme", "Grade IV Glioma"], "GBM"⟩,
  ⟨"Glioma", ["Brain Tumor", "Astrocytoma", "Oligodendroglioma"], "DIFG"⟩,
  ⟨"Mesothelioma", ["Malignant Pleural Mesothelioma", "MPM"], "MESO"⟩,
  ⟨"Sarcoma", ["Soft Tissue Sarcoma", "STS"], "SARC"⟩,
  ⟨"Gastrointestinal Stromal Tumor", ["GIST"], "GIST"⟩,
  ⟨"Ewing Sarcoma", ["Ewing\x27s Sarcoma"], "ES"⟩,
  ⟨"Osteosarcoma", ["Bone Cancer", "Osteogenic Sarcoma"], "OS"⟩,
  ⟨"Cervical Cancer", ["Cervical Carcinoma", "Cervical Squamous Cell Carcinoma"], "CESC"⟩,
  ⟨"Endometrial Cancer", ["Uterine Cancer", "Endometrial Carcinoma"], "UCEC"⟩,
  ⟨"Testicular Cancer", ["Testicular Germ Cell Tumor", "Seminoma", "Non-Seminoma"], "TGCT"⟩,
  ⟨"Neuroblastoma", ["NB", "Pediatric Neuroblastoma"], "NBL"⟩,
  ⟨"Wilms Tumor", ["Nephroblastoma", "Pediatric Kidney Cancer"], "WT"⟩,
  ⟨"Retinoblastoma", ["Eye Cancer", "Pediatric Retinoblastoma"], "RB"⟩,
  ⟨"Merkel Cell Carcinoma", ["MCC", "Neuroendocrine Carcinoma of Skin"], "MCC"⟩,
  ⟨"Basal Cell Carcinoma", ["BCC", "Skin Cancer"], "BCC"⟩,
  ⟨"Squamous Cell Carcinoma of Skin", ["Cutaneous SCC", "cSCC"], "CSCC"⟩,
  ⟨"Adrenocortical Carcinoma", ["ACC", "Adrenal Cancer"], "ACC"⟩,
  ⟨"Pheochromocytoma", ["PHEO", "Paraganglioma"], "PCPG"⟩,
  ⟨"Neuroendocrine Tumor", ["NET", "Carcinoid Tumor"], "NET"⟩,
  ⟨"Acute Myeloid Leukemia", ["AML", "Acute Myelogenous Leukemia"], "AML"⟩,
  ⟨"Acute Lymphoblastic Leukemia", ["ALL", "Acute Lymphocytic Leukemia"], "ALL"⟩,
  ⟨"Chronic Myeloid Leukemia", ["CML", "Chronic Myelogenous Leukemia"], "CML"⟩,
  ⟨"Chronic Lymphocytic Leukemia", ["CLL", "Small Lymphocytic Lymphoma"], "CLL"⟩,
  ⟨"Myelodysplastic Syndrome", ["MDS", "Myelodysplasia"], "MDS"⟩,
  ⟨"Myeloproliferative Neoplasm", ["MPN", "Polycythemia Vera", "Essential Thrombocythemia", "Myelofibrosis"], "MPN"⟩,
  ⟨"Multiple Myeloma", ["MM", "Plasma Cell Myeloma"], "MM"⟩,
  ⟨"Hodgkin Lymphoma", ["HL", "Hodgkin\x27s Disease"], "HL"⟩,
  ⟨"Non-Hodgkin Lymphoma", ["NHL"], "NHL"⟩,
  ⟨"Diffuse Large B-Cell Lymphoma", ["DLBCL"], "DLBCL"⟩,
  ⟨"Follicular Lymphoma", ["FL"], "FL"⟩,
  ⟨"Mantle Cell Lymphoma", ["MCL"], "MCL"⟩,
  ⟨"Marginal Zone Lymphoma", ["MZL", "MALT Lymphoma"], "MZL"⟩,
  ⟨"Burkitt Lymphoma", ["BL"], "BL"⟩,
  ⟨"T-Cell Lymphoma", ["TCL", "Peripheral T-Cell Lymphoma", "PTCL"], "PTCL"⟩,
  ⟨"Cutaneous T-Cell Lymphoma", ["CTCL", "Mycosis Fungoides", "Sezary Syndrome"], "CTCL"⟩,
  ⟨"Waldenstrom Macroglobulinemia", ["WM", "Lymphoplasmacytic Lymphoma"], "WM"⟩,
  ⟨"Hairy Cell Leukemia", ["HCL"], "HCL"⟩,
  ⟨"Systemic Mastocytosis", ["SM", "Mast Cell Disease"], "SM"⟩,
  ⟨"Thymoma", ["Thymic Carcinoma", "Thymic Tumor"], "THYM"⟩,
  ⟨"Desmoid Tumor", ["Aggressive Fibromatosis", "Desmoid Fibromatosis"], "DES"⟩,
  ⟨"Chordoma", ["Spinal Chordoma", "Skull Base Chordoma"], "CHOR"⟩,
  ⟨"Giant Cell Tumor of Bone", ["GCT", "Osteoclastoma"], "GCT"⟩,
  ⟨"Dermatofibrosarcoma Protuberans", ["DFSP"], "DFSP"⟩,
  ⟨"Inflammatory Myofibroblastic Tumor", ["IMT"], "IMT"⟩,
  ⟨"Epithelioid Hemangioendothelioma", ["EHE"], "EHE"⟩,
  ⟨"Alveolar Soft Part Sarcoma", ["ASPS"], "ASPS"⟩,
  ⟨"Clear Cell Sarcoma", ["CCS", "Melanoma of Soft Parts"], "CCS"⟩,
  ⟨"Perivascular Epithelioid Cell Tumor", ["PEComa"], "PEC"⟩]

/-- The lowercased name/alias set built from the Graph Store at the start of
searchNewIndications. -/
def existingNamesOf (s : GraphState) : List String :=
  s.indications.flatMap fun i => lowerStr i.name :: i.aliases.map lowerStr

structure CatalogSearchResult where
  name : String
  aliases : List String
  oncotreeCode : String
  inDatabase : Bool
deriving DecidableEq, Repr

/-- The filter body of searchNewIndications: exclude entries already present
under name or any alias, then match name or any alias against the query. -/
def searchFilter (existing : List String) (queryLower : String)
    (ind : CatalogEntry) : Bool :=
  !(existing.contains (lowerStr ind.name))
  && !(ind.aliases.any fun a => existing.contains (lowerStr a))
  && (strContains (lowerStr ind.name) queryLower
      || ind.aliases.any fun a => strContains (lowerStr a) queryLower)

/-- IndicationResearchService.searchNewIndications: filter the catalog,
`slice(0, limit)`, and map to the response shape. -/
def searchNewIndications (s : GraphState) (query : String) (limit : Nat) :
    List CatalogSearchResult :=
  ((KNOWN_ONCOLOGY_INDICATIONS.filter
      (searchFilter (existingNamesOf s) (lowerStr query))).take limit).map
    fun ind =>
      { name := ind.name, aliases := ind.aliases, oncotreeCode := ind.oncotree
        inDatabase := false }


/-! ### Concrete states and bundles used by counterexamples and witnesses -/

/-- The completely empty graph. -/
def emptyState : GraphState :=
  ⟨[], [], [], [], [], [], [], [], [], [], [], [], [], []⟩

/-- A PREVALENCE metric literal. -/
def mkPrev (id : String) (v : ℚ) (indId region : String) : EpidemiologyMetricNode :=
  ⟨id, "PREVALENCE", v, "patients", 2024, "seed", indId, region⟩

/-- An INCIDENCE metric literal. -/
def mkInc (id : String) (v : ℚ) (indId region : String) : EpidemiologyMetricNode :=
  ⟨id, "INCIDENCE", v, "cases/year", 2024, "seed", indId, region⟩

/-- An indication node literal. -/
def mkInd (id name : String) : IndicationNode :=
  ⟨id, name, [], "", "seed"⟩

/-- Graph with one indication and one USA prevalence metric of value 100. -/
def oneMetricState : GraphState :=
  { emptyState with
    indications := [mkInd "ind-a" "A"]
    regions := ["USA"]
    epiMetrics := [mkPrev "e1" 100 "ind-a" "USA"] }

/-- Graph exhibiting the chained-OPTIONAL-MATCH double counting: one
indication with prevalence metrics 100 (USA) and 50 (EU) and incidence
metrics 10 (USA) and 20 (EU). -/
def crossBugState : GraphState :=
  { emptyState with
    indications := [mkInd "ind-a" "A"]
    regions := ["USA", "EU"]
    epiMetrics := [mkPrev "p1" 100 "ind-a" "USA", mkPrev "p2" 50 "ind-a" "EU",
      mkInc "i1" 10 "ind-a" "USA", mkInc "i2" 20 "ind-a" "EU"] }

/-- Graph exhibiting the same cross product in getAllMutations: a mutation
with a 50% prevalence record in an indication whose region-filtered
prevalence total is 100 and which carries two incidence metrics. -/
def mutBugState : GraphState :=
  { emptyState with
    indications := [mkInd "ind-a" "A"]
    mutations := [⟨"mut-x", "X mut", "GX", "Mutation", "Oncogenic", "seed"⟩]
    genes := [⟨"GX", "gene-gx", "GX", "seed"⟩]
    inGene := [("mut-x", "GX")]
    regions := ["USA", "EU"]
    epiMetrics := [mkPrev "p1" 100 "ind-a" "USA", mkInc "i1" 10 "ind-a" "USA",
      mkInc "i2" 20 "ind-a" "EU"]
    mutPrevs := [⟨"mp1", "mut-x", "ind-a", 50, 2024, "seed", "GLOBAL"⟩] }

/-- Two indications with equal region-filtered prevalence totals, stored in
descending name order. -/
def tieState : GraphState :=
  { emptyState with
    indications := [mkInd "ind-b" "B", mkInd "ind-a" "A"]
    regions := ["USA"]
    epiMetrics := [mkPrev "pb" 100 "ind-b" "USA", mkPrev "pa" 100 "ind-a" "USA"] }

/-- Graph with an indication, a mutation in a gene, and a 50% prevalence
record, but no epidemiology metrics. -/
def c4State : GraphState :=
  { emptyState with
    indications := [mkInd "ind-a" "A"]
    mutations := [⟨"mut-x", "X mut", "GX", "Mutation", "Oncogenic", "seed"⟩]
    genes := [⟨"GX", "gene-gx", "GX", "seed"⟩]
    inGene := [("mut-x", "GX")]
    mutPrevs := [⟨"mp1", "mut-x", "ind-a", 50, 2024, "seed", "GLOBAL"⟩] }

/-- Graph containing a Mutation node that has no IN_GENE edge. -/
def geneLessState : GraphState :=
  { emptyState with
    mutations := [⟨"mut-x", "X mut", "GX", "Mutation", "Oncogenic", "seed"⟩] }

/-- Graph with one fully sparse indication and one fully sparse mutation
(the mutation does have its gene, as every mutation written by this system
does). -/
def sparseState : GraphState :=
  { emptyState with
    indications := [mkInd "ind-a" "A"]
    mutations := [⟨"mut-x", "X mut", "GX", "Mutation", "Oncogenic", "seed"⟩]
    genes := [⟨"GX", "gene-gx", "GX", "seed"⟩]
    inGene := [("mut-x", "GX")] }

/-- Graph whose single indication is stored under the alias
"Breast Carcinoma". -/
def discoveryState : GraphState :=
  { emptyState with
    indications := [⟨"ind-bc", "BC", ["Breast Carcinoma"], "", "seed"⟩] }

/-- Bundle with one epidemiology entry whose region does not exist in the
graph. -/
def c5Bundle : ResearchBundle :=
  ⟨⟨"ind-x", "X", [], "X", "Deep_Research"⟩, [], [],
    [⟨"e1", "ind-x", "USA", "PREVALENCE", 100, "patients", 2024, "Deep_Research"⟩], []⟩

/-- A small researched bundle shaped like the generator's output: one
mutation, one therapy, epidemiology for USA, one GLOBAL prevalence record. -/
def smallBundle : ResearchBundle :=
  ⟨⟨"ind-x", "X Cancer", ["XC"], "XC", "Deep_Research"⟩,
    [⟨"mut-tp53-mutation", "TP53", "TP53 Mutation", "Mutation", "Oncogenic",
      "Deep_Research", 40⟩],
    [⟨"Xtherapy", "X Inhibitor", ["TP53"]⟩],
    [⟨"epi-ind-x-prev-usa", "ind-x", "USA", "PREVALENCE", 50000, "patients", 2024,
      "Deep_Research"⟩],
    [⟨"mp-mut-tp53-mutation-ind-x", "mut-tp53-mutation", "ind-x", 40, "GLOBAL",
      "Deep_Research", 2024⟩]⟩

/-- Starting graph for the import witnesses: only the three seeded Region
nodes exist. -/
def regionsOnlyState : GraphState :=
  { emptyState with regions := ["USA", "EU", "APAC"] }

/-! ### Helper lemmas about the list and sorting machinery -/

theorem roundOrZero_eq_round (q : ℚ) : roundOrZero q = round q := by
  unfold roundOrZero
  by_cases h : q = 0
  · simp [h]
  · simp [h]

theorem mem_of_mem_insertOrd {le : α → α → Bool} {x a : α} {l : List α}
    (h : a ∈ insertOrd le x l) : a = x ∨ a ∈ l := by
  induction l with
  | nil => simpa [insertOrd] using h
  | cons y ys ih =>
    cases hc : le y x with
    | true =>
      simp only [insertOrd, hc, if_true] at h
      rcases List.mem_cons.mp h with h1 | h2
      · exact Or.inr (h1 ▸ List.mem_cons_self y ys)
      · rcases ih h2 with h3 | h4
        · exact Or.inl h3
        · exact Or.inr (List.mem_cons_of_mem y h4)
    | false =>
      simp only [insertOrd, hc, Bool.false_eq_true, if_false] at h
      rcases List.mem_cons.mp h with h1 | h2
      · exact Or.inl h1
      · exact Or.inr h2

theorem mem_of_mem_sortOrd_aux {le : α → α → Bool} {a : α} :
    ∀ (l acc : List α), a ∈ l.foldl (fun acc x => insertOrd le x acc) acc →
      a ∈ acc ∨ a ∈ l := by
  intro l
  induction l with
  | nil => intro acc h; exact Or.inl h
  | cons x xs ih =>
    intro acc h
    rcases ih (insertOrd le x acc) h with h1 | h2
    · rcases mem_of_mem_insertOrd h1 with h3 | h4
      · exact Or.inr (h3 ▸ List.mem_cons_self x xs)
      · exact Or.inl h4
    · exact Or.inr (List.mem_cons_of_mem x h2)

theorem mem_of_mem_sortOrd {le : α → α → Bool} {a : α} {l : List α}
    (h : a ∈ sortOrd le l) : a ∈ l := by
  rcases mem_of_mem_sortOrd_aux l [] h with h1 | h2
  · exact absurd h1 (List.not_mem_nil a)
  · exact h2

theorem of_mem_rankMap {f : Nat → α → β} {b : β} :
    ∀ {n : Nat} {l : List α}, b ∈ rankMap f n l → ∃ k a, a ∈ l ∧ b = f k a := by
  intro n l
  induction l generalizing n with
  | nil => intro h; exact absurd h (List.not_mem_nil b)
  | cons x xs ih =>
    intro h
    rcases List.mem_cons.mp h with h1 | h2
    · exact ⟨n, x, List.mem_cons_self x xs, h1⟩
    · obtain ⟨k, a, ha, hb⟩ := ih h2
      exact ⟨k, a, List.mem_cons_of_mem x ha, hb⟩

theorem mem_of_mem_dedupAux [BEq α] {a : α} :
    ∀ {seen l : List α}, a ∈ dedupAux seen l → a ∈ l := by
  intro seen l
  induction l generalizing seen with
  | nil => intro h; exact absurd h (List.not_mem_nil a)
  | cons x xs ih =>
    intro h
    by_cases hc : seen.contains x = true
    · simp only [dedupAux, hc, if_true] at h
      exact List.mem_cons_of_mem x (ih h)
    · simp only [dedupAux, hc, if_false] at h
      rcases List.mem_cons.mp h with h1 | h2
      · exact h1 ▸ List.mem_cons_self x xs
      · exact List.mem_cons_of_mem x (ih h2)

theorem mem_of_mem_dedupKeepFirst [BEq α] {a : α} {l : List α}
    (h : a ∈ dedupKeepFirst l) : a ∈ l :=
  mem_of_mem_dedupAux h

theorem mem_crossProd {l₁ : List α} {l₂ : List β} {p : α × β} :
    p ∈ crossProd l₁ l₂ ↔ p.1 ∈ l₁ ∧ p.2 ∈ l₂ := by
  cases p with
  | mk a b =>
    simp only [crossProd, List.mem_flatMap, List.mem_map, Prod.mk.injEq]
    constructor
    · rintro ⟨x, hx, y, hy, hxa, hyb⟩
      exact ⟨hxa ▸ hx, hyb ▸ hy⟩
    · rintro ⟨ha, hb⟩
      exact ⟨a, ha, b, hb, rfl, rfl⟩

theorem pairwise_insertOrd {le : α → α → Bool}
    (htot : ∀ a b, le a b = true ∨ le b a = true)
    (htr : ∀ a b c, le a b = true → le b c = true → le a c = true)
    (x : α) {l : List α} (h : l.Pairwise fun a b => le a b = true) :
    (insertOrd le x l).Pairwise fun a b => le a b = true := by
  induction l with
  | nil => simp [insertOrd]
  | cons y ys ih =>
    rcases List.pairwise_cons.mp h with ⟨hy, hys⟩
    cases hc : le y x with
    | true =>
      simp only [insertOrd, hc, if_true]
      refine List.pairwise_cons.mpr ⟨?_, ih hys⟩
      intro z hz
      rcases mem_of_mem_insertOrd hz with h1 | h2
      · exact h1 ▸ hc
      · exact hy z h2
    | false =>
      simp only [insertOrd, hc, Bool.false_eq_true, if_false]
      have hx : le x y = true := (htot x y).resolve_right (by simp [hc])
      refine List.pairwise_cons.mpr ⟨?_, h⟩
      intro z hz
      rcases List.mem_cons.mp hz with h1 | h2
      · exact h1 ▸ hx
      · exact htr x y z hx (hy z h2)

theorem pairwise_sortOrd_aux {le : α → α → Bool}
    (htot : ∀ a b, le a b = true ∨ le b a = true)
    (htr : ∀ a b c, le a b = true → le b c = true → le a c = true) :
    ∀ (l acc : List α), acc.Pairwise (fun a b => le a b = true) →
      (l.foldl (fun acc x => insertOrd le x acc) acc).Pairwise
        fun a b => le a b = true := by
  intro l
  induction l with
  | nil => intro acc h; exact h
  | cons x xs ih =>
    intro acc h
    exact ih (insertOrd le x acc) (pairwise_insertOrd htot htr x h)

theorem pairwise_sortOrd {le : α → α → Bool}
    (htot : ∀ a b, le a b = true ∨ le b a = true)
    (htr : ∀ a b c, le a b = true → le b c = true → le a c = true)
    (l : List α) :
    (sortOrd le l).Pairwise fun a b => le a b = true :=
  pairwise_sortOrd_aux htot htr l [] List.Pairwise.nil

theorem lexLeQ_iff {ka kb : ℚ} {na nb : String} :
    lexLeQ ka kb na nb = true ↔ ka < kb ∨ (ka = kb ∧ na ≤ nb) := by
  simp [lexLeQ, Bool.or_eq_true, Bool.and_eq_true, decide_eq_true_eq, beq_iff_eq]

theorem lexLeN_iff {ka kb : Nat} {na nb : String} :
    lexLeN ka kb na nb = true ↔ ka < kb ∨ (ka = kb ∧ na ≤ nb) := by
  simp [lexLeN, Bool.or_eq_true, Bool.and_eq_true, decide_eq_true_eq, beq_iff_eq]

theorem lex_total_prop {κ : Type} [LinearOrder κ] (x y : κ) (n1 n2 : String) :
    (x < y ∨ (x = y ∧ n1 ≤ n2)) ∨ (y < x ∨ (y = x ∧ n2 ≤ n1)) := by
  rcases lt_trichotomy x y with h | h | h
  · exact Or.inl (Or.inl h)
  · rcases le_total n1 n2 with hn | hn
    · exact Or.inl (Or.inr ⟨h, hn⟩)
    · exact Or.inr (Or.inr ⟨h.symm, hn⟩)
  · exact Or.inr (Or.inl h)

theorem lex_trans_prop {κ : Type} [LinearOrder κ] {x y z : κ} {n1 n2 n3 : String}
    (h1 : x < y ∨ (x = y ∧ n1 ≤ n2)) (h2 : y < z ∨ (y = z ∧ n2 ≤ n3)) :
    x < z ∨ (x = z ∧ n1 ≤ n3) := by
  rcases h1 with h1 | ⟨he1, hn1⟩
  · rcases h2 with h2 | ⟨he2, _⟩
    · exact Or.inl (lt_trans h1 h2)
    · exact Or.inl (he2 ▸ h1)
  · rcases h2 with h2 | ⟨he2, hn2⟩
    · exact Or.inl (he1 ▸ h2)
    · exact Or.inr ⟨he1.trans he2, le_trans hn1 hn2⟩

theorem lex_trans_prop_rev {κ : Type} [LinearOrder κ] {x y z : κ} {n1 n2 n3 : String}
    (h1 : y < x ∨ (y = x ∧ n1 ≤ n2)) (h2 : z < y ∨ (z = y ∧ n2 ≤ n3)) :
    z < x ∨ (z = x ∧ n1 ≤ n3) := by
  rcases h1 with h1 | ⟨he1, hn1⟩
  · rcases h2 with h2 | ⟨he2, _⟩
    · exact Or.inl (lt_trans h2 h1)
    · exact Or.inl (he2 ▸ h1)
  · rcases h2 with h2 | ⟨he2, hn2⟩
    · exact Or.inl (he1 ▸ h2)
    · exact Or.inr ⟨he2.trans he1, le_trans hn1 hn2⟩

theorem mutationLe_total (sortBy : MutationSortBy) (sortOrder : SortOrder)
    (a b : MutationRow) :
    mutationLe sortBy sortOrder a b = true ∨ mutationLe sortBy sortOrder b a = true := by
  cases sortBy <;> cases sortOrder <;>
    simp only [mutationLe, lexLeQ_iff, lexLeN_iff, decide_eq_true_eq]
  case alphabetical.asc => exact le_total a.m.name b.m.name
  case alphabetical.desc => exact le_total b.m.name a.m.name
  all_goals exact lex_total_prop _ _ _ _

theorem mutationLe_trans (sortBy : MutationSortBy) (sortOrder : SortOrder)
    (a b c : MutationRow) (h1 : mutationLe sortBy sortOrder a b = true)
    (h2 : mutationLe sortBy sortOrder b c = true) :
    mutationLe sortBy sortOrder a c = true := by
  cases sortBy <;> cases sortOrder <;>
    simp only [mutationLe, lexLeQ_iff, lexLeN_iff, decide_eq_true_eq] at h1 h2 ⊢
  case alphabetical.asc => exact le_trans h1 h2
  case alphabetical.desc => exact le_trans h2 h1
  case prevalence.asc => exact lex_trans_prop h1 h2
  case prevalence.desc => exact lex_trans_prop_rev h1 h2
  case incidence.asc => exact lex_trans_prop h1 h2
  case incidence.desc => exact lex_trans_prop_rev h1 h2
  case actionability.asc => exact lex_trans_prop h1 h2
  case actionability.desc => exact lex_trans_prop_rev h1 h2

theorem lex_name_of_eq {κ : Type} [LinearOrder κ] {x y : κ} {n1 n2 : String}
    (h : x < y ∨ (x = y ∧ n1 ≤ n2)) (he : x = y) : n1 ≤ n2 := by
  rcases h with h | ⟨_, hn⟩
  · exact absurd (he ▸ h) (lt_irrefl y)
  · exact hn

/-- C6 (amended): the `m.name ASC` tie-break holds for getAllMutations, whose
numeric `ORDER BY` keys all carry it: in the returned row list, whenever an
earlier row and a later row have equal primary sort key, the earlier row's
mutation name is ≤ the later one's, under both sort orders.  (The claim's
assertion about getTopIndications is refuted by `c6_tie_break_counterexample`:
that query orders by the primary key alone and ties keep store order.) -/
theorem c6_tie_break_amended (s : GraphState) (limit : Nat)
    (sortBy : MutationSortBy) (sortOrder : SortOrder) (regions : List String)
    (hsb : sortBy ≠ .alphabetical) :
    (mutationRowsSorted s limit sortBy sortOrder regions).Pairwise
      fun a b => mutationPrimaryEq sortBy a b → a.m.name ≤ b.m.name := by
  have hp := pairwise_sortOrd (mutationLe_total sortBy sortOrder)
    (mutationLe_trans sortBy sortOrder)
    ((mutationGenePairs s).map fun p => mutationRow s regions p.1 p.2)
  have hq := hp.sublist (List.take_sublist limit _)
  refine hq.imp ?_
  intro a b hle he
  cases sortBy with
  | alphabetical => exact absurd rfl hsb
  | prevalence =>
    cases sortOrder with
    | asc =>
      simp only [mutationLe, lexLeQ_iff] at hle
      exact lex_name_of_eq hle he
    | desc =>
      simp only [mutationLe, lexLeQ_iff] at hle
      exact lex_name_of_eq hle he.symm
  | incidence =>
    cases sortOrder with
    | asc =>
      simp only [mutationLe, lexLeQ_iff] at hle
      exact lex_name_of_eq hle he
    | desc =>
      simp only [mutationLe, lexLeQ_iff] at hle
      exact lex_name_of_eq hle he.symm
  | actionability =>
    cases sortOrder with
    | asc =>
      simp only [mutationLe, lexLeN_iff] at hle
      exact lex_name_of_eq hle he
    | desc =>
      simp only [mutationLe, lexLeN_iff] at hle
      exact lex_name_of_eq hle he.symm

/-- Witness: the amended C6 theorem applied to a concrete graph, sort key and
order. -/
theorem c6_tie_break_amended_witness :
    MutationSortBy.prevalence ≠ MutationSortBy.alphabetical ∧
    (mutationRowsSorted mutBugState 50 .prevalence .desc ["USA"]).Pairwise
      (fun a b => mutationPrimaryEq .prevalence a b → a.m.name ≤ b.m.name) :=
  ⟨by decide, c6_tie_break_amended mutBugState 50 .prevalence .desc ["USA"] (by decide)⟩

theorem prevMetricsOf_nil (s : GraphState) (indId : String) :
    prevMetricsOf s indId [] = [] := by
  simp [prevMetricsOf]

theorem incMetricsOf_nil (s : GraphState) (indId : String) :
    incMetricsOf s indId [] = [] := by
  simp [incMetricsOf]

theorem indicationRow_totals_nil (s : GraphState) (i : IndicationNode) :
    (indicationRow s [] i).totalPrevalence = 0 ∧
      (indicationRow s [] i).totalIncidence = 0 := by
  simp [indicationRow, prevMetricsOf_nil, incMetricsOf_nil, optRows, crossProd]

theorem mutationRow_estimates_nil (s : GraphState) (m : MutationNode)
    (g : GeneNode) :
    (mutationRow s [] m g).estimatedPatients = 0 ∧
      (mutationRow s [] m g).estimatedNewCases = 0 := by
  unfold mutationRow
  simp only
  constructor <;>
  · apply List.sum_eq_zero
    intro x hx
    obtain ⟨r, hr, rfl⟩ := List.mem_map.mp hx
    obtain ⟨-, hr2⟩ := mem_crossProd.mp hr
    obtain ⟨o, -, ho⟩ := List.mem_flatMap.mp hr2
    have hnone : r.2.2.1 = none ∧ r.2.2.2 = none := by
      match o with
      | none =>
        simp only [List.mem_singleton] at ho
        rw [ho]
        exact ⟨rfl, rfl⟩
      | some (mp, i) =>
        simp only [prevMetricsOf_nil, incMetricsOf_nil, optRows, crossProd,
          List.isEmpty_nil, if_true, List.flatMap_cons, List.map_cons,
          List.map_nil, List.flatMap_nil, List.append_nil,
          List.mem_singleton] at ho
        rw [ho]
        exact ⟨rfl, rfl⟩
    rcases hnone with ⟨h1, h2⟩
    simp only [h1, h2]
    cases r.2.1 <;> rfl

/-- C9 (amended): an explicitly empty region list is not a default — it makes
the region filter match nothing, so every totals and estimates field of both
aggregation reads is 0; the {USA, EU, APAC} default applies only when the
regions argument is omitted at the TypeScript level. -/
theorem c9_empty_regions_amended (s : GraphState) (limit : Nat)
    (sbi : IndicationSortBy) (sbm : MutationSortBy) (so : SortOrder) :
    (∀ r ∈ getTopIndications s limit [] sbi so,
      r.totalPrevalence = 0 ∧ r.totalIncidence = 0)
    ∧ ∀ r ∈ getAllMutations s limit sbm so [],
      r.estimatedPatients = 0 ∧ r.estimatedNewCases = 0 := by
  constructor
  · intro r hr
    obtain ⟨k, row, hrow, rfl⟩ := of_mem_rankMap hr
    simp only
    have hmem := mem_of_mem_sortOrd ((List.take_sublist _ _).subset hrow)
    obtain ⟨i, -, rfl⟩ := List.mem_map.mp hmem
    rcases indicationRow_totals_nil s i with ⟨h1, h2⟩
    rw [h1, h2]
    exact ⟨roundOrZero_eq_round 0 ▸ round_zero, roundOrZero_eq_round 0 ▸ round_zero⟩
  · intro r hr
    obtain ⟨row, hrow, rfl⟩ := List.mem_map.mp hr
    have hmem := mem_of_mem_sortOrd ((List.take_sublist _ _).subset hrow)
    obtain ⟨p, -, rfl⟩ := List.mem_map.mp hmem
    rcases mutationRow_estimates_nil s p.1 p.2 with ⟨h1, h2⟩
    simp only [h1, h2]
    exact ⟨round_zero, round_zero⟩

/-- Witness: the amended C9 theorem applied to a concrete graph, with a
concrete member of each result list. -/
theorem c9_empty_regions_amended_witness :
    (⟨"ind-a", "A", 1, 0, 0⟩ : IndicationSummary) ∈
      getTopIndications oneMetricState 10 [] .prevalence .desc ∧
    (0 : ℤ) = 0 ∧ (0 : ℤ) = 0 := by
  have hmem : (⟨"ind-a", "A", 1, 0, 0⟩ : IndicationSummary) ∈
      getTopIndications oneMetricState 10 [] .prevalence .desc := by
    simp [getTopIndications, indicationRow, prevMetricsOf, incMetricsOf,
      crossProd, optRows, sortOrd, insertOrd, indicationLe, roundOrZero,
      rankMap, oneMetricState, emptyState, mkInd, mkPrev]
  exact ⟨hmem,
    (c9_empty_regions_amended oneMetricState 10 .prevalence .actionability
      .desc).1 _ hmem⟩

theorem indicationPrevalenceTotal_nonneg (s : GraphState) (indId : String)
    (regions : List String) (hval : ∀ e ∈ s.epiMetrics, 0 ≤ e.value) :
    0 ≤ indicationPrevalenceTotal s indId regions := by
  apply List.sum_nonneg
  intro x hx
  have hx2 := mem_of_mem_dedupKeepFirst hx
  obtain ⟨e, he, rfl⟩ := List.mem_map.mp hx2
  exact hval e (List.mem_of_mem_filter he)

theorem indicationIncidenceTotal_nonneg (s : GraphState) (indId : String)
    (regions : List String) (hval : ∀ e ∈ s.epiMetrics, 0 ≤ e.value) :
    0 ≤ indicationIncidenceTotal s indId regions := by
  apply List.sum_nonneg
  intro x hx
  have hx2 := mem_of_mem_dedupKeepFirst hx
  obtain ⟨e, he, rfl⟩ := List.mem_map.mp hx2
  exact hval e (List.mem_of_mem_filter he)

theorem estimate_round_of_total_nonneg {q tp : ℚ} (htp : 0 ≤ tp) :
    roundOrZero (if tp > 0 then q * tp / 100 else 0) = round (tp * q / 100) := by
  by_cases h : tp > 0
  · rw [if_pos h, roundOrZero_eq_round, mul_comm q tp]
  · have h0 : tp = 0 := le_antisymm (not_lt.mp h) htp
    rw [if_neg h, h0]
    simp [roundOrZero]

/-- C4: in the indication dossier, for every listed mutation row carrying a
recorded percentage p, the estimated patient counts equal
round(total · p / 100) — the product is computed exactly and rounded once at
the JS boundary — and a row with no recorded percentage reports 0 (never
null) for both estimates, whatever the totals are.  The totals are the
query's region-filtered `sum(DISTINCT ...)` aggregates. -/
theorem c4_estimate_round_once (s : GraphState) (indicationId : String)
    (regions : List String) (hval : ∀ e ∈ s.epiMetrics, 0 ≤ e.value)
    (d : IndicationDossier)
    (hd : getIndicationMiipa s indicationId regions = some d)
    (ent : IndMutEntry) (hent : ent ∈ d.mutations) :
    (∀ p, ent.percentageOfPatients = some p →
      ent.estimatedPrevalencePatients =
        round (indicationPrevalenceTotal s d.indication.id regions * p / 100)
      ∧ ent.estimatedIncidencePatients =
        round (indicationIncidenceTotal s d.indication.id regions * p / 100))
    ∧ (ent.percentageOfPatients = none →
      ent.estimatedPrevalencePatients = 0 ∧ ent.estimatedIncidencePatients = 0) := by
  unfold getIndicationMiipa at hd
  cases hfind : s.indications.find? fun i => i.id == indicationId with
  | none =>
    rw [hfind] at hd
    exact absurd hd (by simp)
  | some i =>
    rw [hfind] at hd
    simp only [Option.some.injEq] at hd
    subst hd
    obtain ⟨pair, hpair, hent2⟩ := List.mem_flatMap.mp hent
    obtain ⟨mpOpt, hmp, rfl⟩ := List.mem_map.mp hent2
    have htp := indicationPrevalenceTotal_nonneg s i.id regions hval
    have hti := indicationIncidenceTotal_nonneg s i.id regions hval
    cases mpOpt with
    | none =>
      refine ⟨fun p hp => absurd hp (by simp [indMutEntry]), fun _ => ?_⟩
      simp [indMutEntry, roundOrZero]
    | some mp =>
      by_cases hq : mp.percentageOfPatients = 0
      · refine ⟨fun p hp => absurd hp (by simp [indMutEntry, hq]), fun _ => ?_⟩
        constructor <;> simp [indMutEntry, hq, roundOrZero]
      · constructor
        · intro p hp
          have hpq : p = mp.percentageOfPatients := by
            simp only [indMutEntry, beq_iff_eq, hq, if_false,
              Option.some.injEq] at hp
            exact hp.symm
          subst hpq
          exact ⟨estimate_round_of_total_nonneg htp,
            estimate_round_of_total_nonneg hti⟩
        · intro hp
          exact absurd hp (by simp [indMutEntry, hq])

/-- Witness: the C4 theorem applied to a concrete graph whose dossier lists
one mutation with percentage 50. -/
theorem c4_estimate_round_once_witness :
    (∀ e ∈ c4State.epiMetrics, 0 ≤ e.value) ∧
    ∃ d, getIndicationMiipa c4State "ind-a" [] = some d ∧
      ∃ ent ∈ d.mutations,
        (∀ p, ent.percentageOfPatients = some p →
          ent.estimatedPrevalencePatients =
            round (indicationPrevalenceTotal c4State d.indication.id [] * p / 100)
          ∧ ent.estimatedIncidencePatients =
            round (indicationIncidenceTotal c4State d.indication.id [] * p / 100))
        ∧ (ent.percentageOfPatients = none →
          ent.estimatedPrevalencePatients = 0 ∧
            ent.estimatedIncidencePatients = 0) := by
  refine ⟨by decide, ?_⟩
  cases hd : getIndicationMiipa c4State "ind-a" [] with
  | none => exact absurd hd (by decide)
  | some d =>
    refine ⟨d, rfl, ?_⟩
    have hne : d.mutations ≠ [] := by
      have h2 : (getIndicationMiipa c4State "ind-a" []).map
          (fun x => x.mutations.isEmpty) = some false := by decide
      rw [hd] at h2
      simp at h2
      intro hcon
      rw [hcon] at h2
      simp at h2
    cases hm : d.mutations with
    | nil => exact absurd hm hne
    | cons ent rest =>
      exact ⟨ent, hm ▸ List.mem_cons_self ent rest,
        c4_estimate_round_once c4State "ind-a" [] (by decide) d hd ent
          (hm ▸ List.mem_cons_self ent rest)⟩

theorem therapiesOf_eq_nil {s : GraphState} {indId : String}
    (h : ∀ p ∈ s.hasTherapy, p.1 ≠ indId) : therapiesOf s indId = [] := by
  unfold therapiesOf
  rw [List.filter_eq_nil_iff.mpr, List.flatMap_nil]
  intro p hp
  simp [h p hp]

theorem diagnosticsOf_eq_nil {s : GraphState} {indId : String}
    (h : ∀ p ∈ s.hasDiagnostic, p.1 ≠ indId) : diagnosticsOf s indId = [] := by
  unfold diagnosticsOf
  rw [List.filter_eq_nil_iff.mpr, List.flatMap_nil]
  intro p hp
  simp [h p hp]

theorem epiRegionRowsOf_eq_nil {s : GraphState} {indId : String}
    {regions : List String} (h : ∀ e ∈ s.epiMetrics, e.indicationId ≠ indId) :
    epiRegionRowsOf s indId regions = [] := by
  unfold epiRegionRowsOf
  rw [List.filter_eq_nil_iff.mpr]
  intro e he
  simp [h e he]

theorem indMutCandidates_eq_nil {s : GraphState} {i : IndicationNode}
    (h4 : ∀ p ∈ s.assocWith, p.2 ≠ i.id)
    (h5 : ∀ ta ∈ s.tActionabilities, ta.indicationId ≠ some i.id)
    (h6 : ∀ mp ∈ s.mutPrevs, mp.indicationId ≠ i.id) :
    indMutCandidates s i = [] := by
  unfold indMutCandidates
  rw [List.filter_eq_nil_iff.mpr]
  intro p hp
  simp only [Bool.or_eq_true, List.any_eq_true, Bool.and_eq_true, beq_iff_eq,
    List.contains_iff_exists_mem_beq, not_or]
  refine ⟨⟨?_, ?_⟩, ?_⟩
  · rintro ⟨e, he, hbeq⟩
    have : e = (p.1.id, i.id) := by simpa [eq_comm] using hbeq
    exact h4 e he (by rw [this])
  · rintro ⟨ta, hta, -, hta2⟩
    exact h5 ta hta hta2
  · rintro ⟨mp, hmp, -, hmp2⟩
    exact h6 mp hmp hmp2

theorem assocIndicationsOf_eq_nil {s : GraphState} {mId : String}
    (h : ∀ p ∈ s.assocWith, p.1 ≠ mId) : assocIndicationsOf s mId = [] := by
  unfold assocIndicationsOf
  rw [List.filter_eq_nil_iff.mpr, List.flatMap_nil]
  intro p hp
  simp [h p hp]

theorem actsOf_eq_nil {s : GraphState} {mId : String}
    (h : ∀ a ∈ s.actionabilities, a.mutationId ≠ mId) : actsOf s mId = [] := by
  unfold actsOf
  rw [List.filter_eq_nil_iff.mpr]
  intro a ha
  simp [h a ha]

theorem mutTherapies_eq_nil {s : GraphState} {mId : String}
    (h : ∀ ta ∈ s.tActionabilities, ta.mutationId ≠ mId) :
    mutTherapies s mId = [] := by
  unfold mutTherapies
  rw [List.filter_eq_nil_iff.mpr]
  · rfl
  · intro ta hta
    simp [h ta hta]

/-- C8 (counterexample): a Mutation node whose id matches the request but
with no IN_GENE edge exists, yet getMutationMiipa returns the not-found
signal — the base `MATCH (m)-[:IN_GENE]->(g)` requires a gene, so existence
of a node with the id is not equivalent to a non-null dossier. -/
theorem c8_notfound_counterexample :
    (∃ m ∈ geneLessState.mutations, m.id = "mut-x")
    ∧ getMutationMiipa geneLessState "mut-x" [] = none := by
  constructor
  · exact ⟨⟨"mut-x", "X mut", "GX", "Mutation", "Oncogenic", "seed"⟩,
      by decide, rfl⟩
  · decide

/-- C8 (amended): getIndicationMiipa returns the not-found signal exactly
when no Indication node has the id, and a sparse-but-existing indication
yields a dossier with empty collections; getMutationMiipa returns not-found
exactly when no Mutation node with the id has an IN_GENE edge to a Gene (for
graphs respecting the every-mutation-has-a-gene invariant this coincides
with plain existence), and a sparse mutation with its gene yields a dossier
with empty collections. -/
theorem c8_notfound_amended (s : GraphState) (nodeId : String)
    (regions : List String) :
    ((getIndicationMiipa s nodeId regions).isNone ↔
      ∀ i ∈ s.indications, i.id ≠ nodeId)
    ∧ ((getMutationMiipa s nodeId regions).isNone ↔
      ∀ m ∈ s.mutations, m.id = nodeId →
        ∀ g ∈ s.genes, (m.id, g.hugoSymbol) ∉ s.inGene)
    ∧ ((∃ i ∈ s.indications, i.id = nodeId) →
      (∀ p ∈ s.hasTherapy, p.1 ≠ nodeId) →
      (∀ p ∈ s.hasDiagnostic, p.1 ≠ nodeId) →
      (∀ e ∈ s.epiMetrics, e.indicationId ≠ nodeId) →
      (∀ p ∈ s.assocWith, p.2 ≠ nodeId) →
      (∀ ta ∈ s.tActionabilities, ta.indicationId ≠ some nodeId) →
      (∀ mp ∈ s.mutPrevs, mp.indicationId ≠ nodeId) →
      ∃ d, getIndicationMiipa s nodeId regions = some d ∧ d.mutations = []
        ∧ d.therapies = [] ∧ d.diagnostics = [] ∧ d.epidemiology = [])
    ∧ ((∃ m, m ∈ s.mutations ∧ m.id = nodeId ∧
        ∃ g ∈ s.genes, (m.id, g.hugoSymbol) ∈ s.inGene) →
      (∀ p ∈ s.assocWith, p.1 ≠ nodeId) →
      (∀ a ∈ s.actionabilities, a.mutationId ≠ nodeId) →
      (∀ ta ∈ s.tActionabilities, ta.mutationId ≠ nodeId) →
      ∃ d, getMutationMiipa s nodeId regions = some d ∧ d.indications = []
        ∧ d.epidemiology = [] ∧ d.actionability = [] ∧ d.therapies = []
        ∧ d.diagnostics = []) := by
  refine ⟨?_, ?_, ?_, ?_⟩
  · unfold getIndicationMiipa
    cases hfind : s.indications.find? fun i => i.id == nodeId with
    | none =>
      simp only [Option.isNone_none, true_iff]
      intro i hi
      have := List.find?_eq_none.mp hfind i hi
      simpa using this
    | some i =>
      apply iff_of_false
      · simp
      · intro hR
        exact hR i (List.mem_of_find?_eq_some hfind)
          (by simpa using List.find?_some hfind)
  · unfold getMutationMiipa
    cases hpairs : (s.mutations.filter fun m => m.id == nodeId).flatMap
        fun m => (s.genes.filter fun g =>
          s.inGene.contains (m.id, g.hugoSymbol)).map fun g => (m, g) with
    | nil =>
      simp only [Option.isNone_none, true_iff]
      intro m hm hmid g hg hedge
      have h1 := List.flatMap_eq_nil_iff.mp hpairs m
        (List.mem_filter.mpr ⟨hm, by simp [hmid]⟩)
      rw [List.map_eq_nil_iff, List.filter_eq_nil_iff] at h1
      exact h1 g hg (by simpa using hedge)
    | cons p rest =>
      apply iff_of_false
      · simp
      · intro hR
        have hp : p ∈ (s.mutations.filter fun m => m.id == nodeId).flatMap
            fun m => (s.genes.filter fun g =>
              s.inGene.contains (m.id, g.hugoSymbol)).map fun g => (m, g) := by
          rw [hpairs]; exact List.mem_cons_self p rest
        obtain ⟨m, hm, hp2⟩ := List.mem_flatMap.mp hp
        obtain ⟨g, hg, hp3⟩ := List.mem_map.mp hp2
        have hmid : m.id = nodeId := by
          have := (List.mem_filter.mp hm).2
          simpa using this
        have hedge : (m.id, g.hugoSymbol) ∈ s.inGene := by
          have := (List.mem_filter.mp hg).2
          simpa using this
        exact hR m (List.mem_filter.mp hm).1 hmid g (List.mem_filter.mp hg).1 hedge
  · rintro ⟨i, hi, hiid⟩ h1 h2 h3 h4 h5 h6
    cases hfind : s.indications.find? fun x => x.id == nodeId with
    | none =>
      exact absurd (List.find?_eq_none.mp hfind i hi) (by simp [hiid])
    | some i0 =>
      have hi0 : i0.id = nodeId := by simpa using List.find?_some hfind
      have ht : therapiesOf s i0.id = [] :=
        therapiesOf_eq_nil fun p hp hcon => h1 p hp (hcon.trans hi0)
      have hdg : diagnosticsOf s i0.id = [] :=
        diagnosticsOf_eq_nil fun p hp hcon => h2 p hp (hcon.trans hi0)
      have hepi : epiRegionRowsOf s i0.id regions = [] :=
        epiRegionRowsOf_eq_nil fun e he hcon => h3 e he (hcon.trans hi0)
      have hcand := indMutCandidates_eq_nil (s := s) (i := i0)
        (hi0 ▸ h4) (hi0 ▸ h5) (hi0 ▸ h6)
      refine ⟨_, by unfold getIndicationMiipa; rw [hfind], ?_, ?_, ?_, ?_⟩ <;>
        simp [ht, hdg, hepi, hcand, optRows, crossProd, dedupKeepFirst, dedupAux]
  · rintro ⟨m, hm, hmid, g, hg, hedge⟩ h1 h2 h3
    have hmem : (m, g) ∈ (s.mutations.filter fun x => x.id == nodeId).flatMap
        fun x => (s.genes.filter fun y =>
          s.inGene.contains (x.id, y.hugoSymbol)).map fun y => (x, y) := by
      refine List.mem_flatMap.mpr ⟨m, List.mem_filter.mpr ⟨hm, by simp [hmid]⟩, ?_⟩
      exact List.mem_map.mpr ⟨g, List.mem_filter.mpr ⟨hg, by simpa using hedge⟩, rfl⟩
    cases hpairs : (s.mutations.filter fun x => x.id == nodeId).flatMap
        fun x => (s.genes.filter fun y =>
          s.inGene.contains (x.id, y.hugoSymbol)).map fun y => (x, y) with
    | nil => rw [hpairs] at hmem; exact absurd hmem (List.not_mem_nil _)
    | cons p rest =>
      have hpm : p.1.id = nodeId := by
        have hp : p ∈ (s.mutations.filter fun x => x.id == nodeId).flatMap
            fun x => (s.genes.filter fun y =>
              s.inGene.contains (x.id, y.hugoSymbol)).map fun y => (x, y) := by
          rw [hpairs]; exact List.mem_cons_self p rest
        obtain ⟨m2, hm2, hp2⟩ := List.mem_flatMap.mp hp
        obtain ⟨g2, hg2, hp3⟩ := List.mem_map.mp hp2
        have : m2.id = nodeId := by simpa using (List.mem_filter.mp hm2).2
        rw [← hp3]
        exact this
      have hasc : assocIndicationsOf s p.1.id = [] :=
        assocIndicationsOf_eq_nil fun q hq hcon => h1 q hq (hcon.trans hpm)
      have hact : actsOf s p.1.id = [] :=
        actsOf_eq_nil fun a ha hcon => h2 a ha (hcon.trans hpm)
      have hth : mutTherapies s p.1.id = [] :=
        mutTherapies_eq_nil fun ta hta hcon => h3 ta hta (hcon.trans hpm)
      refine ⟨_, by unfold getMutationMiipa; rw [hpairs], ?_, ?_, ?_, ?_, ?_⟩ <;>
        simp [hasc, hact, hth, optRows, crossProd, dedupKeepFirst, dedupAux]

/-- Witness: the amended C8 theorem's sparse-indication clause applied to a
concrete graph whose single indication has no related entities. -/
theorem c8_notfound_amended_witness :
    (∃ i ∈ sparseState.indications, i.id = "ind-a") ∧
    ∃ d, getIndicationMiipa sparseState "ind-a" [] = some d ∧ d.mutations = []
      ∧ d.therapies = [] ∧ d.diagnostics = [] ∧ d.epidemiology = [] :=
  ⟨⟨mkInd "ind-a" "A", by decide, rfl⟩,
    (c8_notfound_amended sparseState "ind-a" []).2.2.1
      ⟨mkInd "ind-a" "A", by decide, rfl⟩ (by decide) (by decide) (by decide)
      (by decide) (by decide) (by decide)⟩

/-- C7: for every graph state, query and limit, searchNewIndications never
returns a catalog entry whose canonical name or any alias is present
case-insensitively among the store's names and aliases; the result has at
most `limit` entries and preserves catalog order (it is a sublist of the
mapped catalog). -/
theorem c7_discovery_exclusion (s : GraphState) (query : String) (limit : Nat) :
    (∀ r ∈ searchNewIndications s query limit,
      (existingNamesOf s).contains (lowerStr r.name) = false
      ∧ ∀ a ∈ r.aliases, (existingNamesOf s).contains (lowerStr a) = false)
    ∧ (searchNewIndications s query limit).length ≤ limit
    ∧ (searchNewIndications s query limit).Sublist
        (KNOWN_ONCOLOGY_INDICATIONS.map fun ind =>
          { name := ind.name, aliases := ind.aliases
            oncotreeCode := ind.oncotree, inDatabase := false }) := by
  refine ⟨?_, ?_, ?_⟩
  · intro r hr
    obtain ⟨ind, hind, rfl⟩ := List.mem_map.mp hr
    have hf : searchFilter (existingNamesOf s) (lowerStr query) ind = true :=
      (List.mem_filter.mp ((List.take_sublist _ _).subset hind)).2
    simp only [searchFilter, Bool.and_eq_true, Bool.not_eq_true'] at hf
    refine ⟨hf.1.1, ?_⟩
    intro a ha
    have := hf.1.2
    rw [List.any_eq_false] at this
    have h2 := this a ha
    simpa using h2
  · rw [searchNewIndications, List.length_map, List.length_take]
    exact min_le_left _ _
  · exact List.Sublist.map _ ((List.take_sublist _ _).trans (List.filter_sublist _))

/-- Witness: the C7 theorem applied to a graph holding the alias
"Breast Carcinoma" with the query "carcinoma"; the Breast Cancer catalog
entry is excluded while other carcinoma entries are returned. -/
theorem c7_discovery_exclusion_witness :
    (⟨"Hepatocellular Carcinoma", ["HCC", "Liver Cancer", "Primary Liver Cancer"],
        "HCC", false⟩ : CatalogSearchResult) ∈
      searchNewIndications discoveryState "carcinoma" 10
    ∧ (existingNamesOf discoveryState).contains
        (lowerStr "Hepatocellular Carcinoma") = false
    ∧ (searchNewIndications discoveryState "carcinoma" 10).length ≤ 10 := by
  have hmem : (⟨"Hepatocellular Carcinoma",
      ["HCC", "Liver Cancer", "Primary Liver Cancer"], "HCC", false⟩ :
        CatalogSearchResult) ∈
      searchNewIndications discoveryState "carcinoma" 10 := by decide
  exact ⟨hmem,
    ((c7_discovery_exclusion discoveryState "carcinoma" 10).1 _ hmem).1,
    (c7_discovery_exclusion discoveryState "carcinoma" 10).2.1⟩

theorem strContains_empty_needle (h : String) : strContains h "" = true := by
  unfold strContains
  show infixAux [] h.data = true
  cases h.data with
  | nil => rfl
  | cons c cs => rfl

/-- C10: with the empty query every catalog entry matches, so
searchNewIndications returns exactly the first `limit` catalog entries (in
catalog order) whose name and every alias are absent case-insensitively from
the store. -/
theorem c10_empty_query_enumerates (s : GraphState) (limit : Nat) :
    searchNewIndications s "" limit =
      ((KNOWN_ONCOLOGY_INDICATIONS.filter fun ind =>
          !((existingNamesOf s).contains (lowerStr ind.name))
          && !(ind.aliases.any fun a =>
            (existingNamesOf s).contains (lowerStr a))).take limit).map
        fun ind =>
          { name := ind.name, aliases := ind.aliases
            oncotreeCode := ind.oncotree, inDatabase := false } := by
  unfold searchNewIndications
  congr 1
  congr 1
  apply List.filter_congr
  intro ind _
  have hlow : lowerStr "" = "" := rfl
  rw [hlow]
  simp [searchFilter, strContains_empty_needle]

/-! ### Lemmas about the upsert and merge primitives -/

theorem upsertBy_key_eq {key : α → String} {k : String} {v : α} {l : List α}
    (hkv : key v = k) : ∀ x ∈ upsertBy key k v l, key x = k → x = v := by
  intro x hx hkx
  unfold upsertBy at hx
  by_cases hany : l.any (fun y => key y == k) = true
  · rw [if_pos hany] at hx
    obtain ⟨y, -, hy⟩ := List.mem_map.mp hx
    by_cases hky : key y = k
    · rw [if_pos (by simp [hky])] at hy
      exact hy.symm
    · rw [if_neg (by simp [hky])] at hy
      exact absurd (hy ▸ hkx) hky
  · rw [if_neg hany] at hx
    rcases List.mem_append.mp hx with h1 | h2
    · have hf : l.any (fun y => key y == k) = false := by simpa using hany
      exact absurd (by simp [hkx]) (List.any_eq_false.mp hf x h1)
    · simpa using h2

theorem upsertBy_key_present {key : α → String} {k : String} {v : α}
    (l : List α) (hkv : key v = k) : ∃ x ∈ upsertBy key k v l, key x = k := by
  unfold upsertBy
  by_cases hany : l.any (fun y => key y == k) = true
  · rw [if_pos hany]
    obtain ⟨y, hy, hky⟩ := List.any_eq_true.mp hany
    exact ⟨v, List.mem_map.mpr ⟨y, hy, by simp only [hky, if_true]⟩, hkv⟩
  · rw [if_neg hany]
    exact ⟨v, List.mem_append_right l (List.mem_singleton.mpr rfl), hkv⟩

theorem upsertBy_preserve_eq {key : α → String} {k k' : String} {v v' : α}
    {l : List α} (hkv : key v = k) (hne : k' ≠ k)
    (h1 : ∀ x ∈ l, key x = k' → x = v') :
    ∀ x ∈ upsertBy key k v l, key x = k' → x = v' := by
  intro x hx hkx
  unfold upsertBy at hx
  by_cases hany : l.any (fun y => key y == k) = true
  · rw [if_pos hany] at hx
    obtain ⟨y, hy, hxy⟩ := List.mem_map.mp hx
    by_cases hky : key y = k
    · rw [if_pos (by simp [hky])] at hxy
      exfalso
      apply hne
      rw [← hkx, ← hxy, hkv]
    · rw [if_neg (by simp [hky])] at hxy
      exact h1 x (hxy ▸ hy) hkx
  · rw [if_neg hany] at hx
    rcases List.mem_append.mp hx with h2 | h3
    · exact h1 x h2 hkx
    · exfalso
      apply hne
      rw [← hkx, List.mem_singleton.mp h3, hkv]

theorem upsertBy_preserve_present {key : α → String} {k k' : String} {v : α}
    {l : List α} (hkv : key v = k) (h : ∃ x ∈ l, key x = k') :
    ∃ x ∈ upsertBy key k v l, key x = k' := by
  by_cases he : k' = k
  · subst he
    exact upsertBy_key_present l hkv
  · obtain ⟨x, hx, hkx⟩ := h
    unfold upsertBy
    by_cases hany : l.any (fun y => key y == k) = true
    · rw [if_pos hany]
      refine ⟨x, List.mem_map.mpr ⟨x, hx, ?_⟩, hkx⟩
      rw [if_neg (by simp only [hkx, beq_iff_eq]; exact he)]
    · rw [if_neg hany]
      exact ⟨x, List.mem_append_left _ hx, hkx⟩

theorem upsertBy_noop {key : α → String} {k : String} {v : α} {l : List α}
    (hp : ∃ x ∈ l, key x = k) (ha : ∀ x ∈ l, key x = k → x = v) :
    upsertBy key k v l = l := by
  unfold upsertBy
  obtain ⟨x0, hx0, hk0⟩ := hp
  rw [if_pos (List.any_eq_true.mpr ⟨x0, hx0, by simp [hk0]⟩)]
  have hmap : List.map (fun x => if (key x == k) = true then v else x) l =
      List.map id l := by
    apply List.map_congr_left
    intro x hx
    by_cases hkx : key x = k
    · rw [if_pos (by simp [hkx])]
      exact (ha x hx hkx).symm
    · rw [if_neg (by simp [hkx])]
      rfl
  simpa using hmap

theorem foldUpsert_preserve {key : α → String} {keyOf : β → String}
    {valOf : β → α} {k : String} {v : α}
    (hkv : ∀ b, key (valOf b) = keyOf b) :
    ∀ {bs : List β} {l : List α}, (∀ b ∈ bs, keyOf b ≠ k) →
      (∀ x ∈ l, key x = k → x = v) → (∃ x ∈ l, key x = k) →
      (∀ x ∈ bs.foldl (fun acc b => upsertBy key (keyOf b) (valOf b) acc) l,
        key x = k → x = v)
      ∧ ∃ x ∈ bs.foldl (fun acc b => upsertBy key (keyOf b) (valOf b) acc) l,
        key x = k := by
  intro bs
  induction bs with
  | nil => intro l _ ha hp; exact ⟨ha, hp⟩
  | cons b rest ih =>
    intro l hk ha hp
    simp only [List.foldl_cons]
    refine ih (fun b2 hb2 => hk b2 (List.mem_cons_of_mem b hb2)) ?_ ?_
    · exact upsertBy_preserve_eq (hkv b) (fun hh => hk b (List.mem_cons_self b rest) hh.symm) ha
    · exact upsertBy_preserve_present (hkv b) hp

theorem foldUpsert_all_eq {key : α → String} {keyOf : β → String}
    {valOf : β → α} (hkv : ∀ b, key (valOf b) = keyOf b) :
    ∀ {bs : List β} {l : List α}, (bs.map keyOf).Nodup → ∀ b ∈ bs,
      (∀ x ∈ bs.foldl (fun acc b => upsertBy key (keyOf b) (valOf b) acc) l,
        key x = keyOf b → x = valOf b)
      ∧ ∃ x ∈ bs.foldl (fun acc b => upsertBy key (keyOf b) (valOf b) acc) l,
        key x = keyOf b := by
  intro bs
  induction bs with
  | nil => intro l _ b hb; exact absurd hb (List.not_mem_nil b)
  | cons b0 rest ih =>
    intro l hnd b hb
    simp only [List.map_cons, List.nodup_cons] at hnd
    rcases List.mem_cons.mp hb with hb1 | hb2
    · subst hb1
      simp only [List.foldl_cons]
      refine foldUpsert_preserve hkv ?_ (upsertBy_key_eq (hkv b))
        (upsertBy_key_present l (hkv b))
      intro b2 hb2 hkb2
      exact hnd.1 (hkb2 ▸ List.mem_map_of_mem keyOf hb2)
    · simp only [List.foldl_cons]
      exact ih hnd.2 b hb2

theorem foldUpsert_noop {key : α → String} {keyOf : β → String}
    {valOf : β → α} :
    ∀ {bs : List β} {l : List α},
      (∀ b ∈ bs, (∀ x ∈ l, key x = keyOf b → x = valOf b)
        ∧ ∃ x ∈ l, key x = keyOf b) →
      bs.foldl (fun acc b => upsertBy key (keyOf b) (valOf b) acc) l = l := by
  intro bs
  induction bs with
  | nil => intro l _; rfl
  | cons b rest ih =>
    intro l h
    simp only [List.foldl_cons]
    have hb := h b (List.mem_cons_self b rest)
    rw [upsertBy_noop hb.2 hb.1]
    exact ih fun b2 hb2 => h b2 (List.mem_cons_of_mem b hb2)

theorem foldUpsert_idem (key : α → String) (keyOf : β → String)
    (valOf : β → α) (hkv : ∀ b, key (valOf b) = keyOf b)
    {bs : List β} {l : List α} (hnd : (bs.map keyOf).Nodup) :
    bs.foldl (fun acc b => upsertBy key (keyOf b) (valOf b) acc)
      (bs.foldl (fun acc b => upsertBy key (keyOf b) (valOf b) acc) l) =
    bs.foldl (fun acc b => upsertBy key (keyOf b) (valOf b) acc) l :=
  foldUpsert_noop fun b hb => foldUpsert_all_eq hkv hnd b hb

theorem upsertBy_idem {key : α → String} {k : String} {v : α} {l : List α}
    (hkv : key v = k) :
    upsertBy key k v (upsertBy key k v l) = upsertBy key k v l :=
  upsertBy_noop (upsertBy_key_present l hkv) (upsertBy_key_eq hkv)

theorem mergeGene_present (l : List GeneNode) (g : String) :
    ∃ x ∈ mergeGene l g, x.hugoSymbol = g := by
  unfold mergeGene
  by_cases hany : l.any (fun x => x.hugoSymbol == g) = true
  · rw [if_pos hany]
    obtain ⟨x, hx, hk⟩ := List.any_eq_true.mp hany
    exact ⟨x, hx, by simpa using hk⟩
  · rw [if_neg hany]
    exact ⟨geneTarget g, List.mem_append_right l (List.mem_singleton.mpr rfl), rfl⟩

theorem mergeGene_noop {l : List GeneNode} {g : String}
    (h : ∃ x ∈ l, x.hugoSymbol = g) : mergeGene l g = l := by
  obtain ⟨x, hx, hk⟩ := h
  unfold mergeGene
  rw [if_pos (List.any_eq_true.mpr ⟨x, hx, by simp [hk]⟩)]

theorem mergeGene_mono {l : List GeneNode} {g g' : String}
    (h : ∃ x ∈ l, x.hugoSymbol = g') : ∃ x ∈ mergeGene l g, x.hugoSymbol = g' := by
  obtain ⟨x, hx, hk⟩ := h
  unfold mergeGene
  by_cases hany : l.any (fun y => y.hugoSymbol == g) = true
  · rw [if_pos hany]
    exact ⟨x, hx, hk⟩
  · rw [if_neg hany]
    exact ⟨x, List.mem_append_left _ hx, hk⟩

theorem foldMergeGene_mono {g' : String} :
    ∀ {ms : List ResearchedMutation} {l : List GeneNode},
      (∃ x ∈ l, x.hugoSymbol = g') →
      ∃ x ∈ ms.foldl (fun acc rm => mergeGene acc rm.gene) l, x.hugoSymbol = g' := by
  intro ms
  induction ms with
  | nil => intro l h; exact h
  | cons rm rest ih =>
    intro l h
    simp only [List.foldl_cons]
    exact ih (mergeGene_mono h)

theorem foldMergeGene_present {ms : List ResearchedMutation}
    {l : List GeneNode} {rm : ResearchedMutation} (hm : rm ∈ ms) :
    ∃ x ∈ ms.foldl (fun acc rm => mergeGene acc rm.gene) l,
      x.hugoSymbol = rm.gene := by
  induction ms generalizing l with
  | nil => exact absurd hm (List.not_mem_nil rm)
  | cons m0 rest ih =>
    simp only [List.foldl_cons]
    rcases List.mem_cons.mp hm with h1 | h2
    · subst h1
      exact foldMergeGene_mono (mergeGene_present l rm.gene)
    · exact ih h2

theorem foldMergeGene_noop :
    ∀ {ms : List ResearchedMutation} {l : List GeneNode},
      (∀ rm ∈ ms, ∃ x ∈ l, x.hugoSymbol = rm.gene) →
      ms.foldl (fun acc rm => mergeGene acc rm.gene) l = l := by
  intro ms
  induction ms with
  | nil => intro l _; rfl
  | cons rm rest ih =>
    intro l h
    simp only [List.foldl_cons]
    rw [mergeGene_noop (h rm (List.mem_cons_self rm rest))]
    exact ih fun r2 h2 => h r2 (List.mem_cons_of_mem rm h2)

theorem foldMergeGene_idem {ms : List ResearchedMutation} {l : List GeneNode} :
    ms.foldl (fun acc rm => mergeGene acc rm.gene)
      (ms.foldl (fun acc rm => mergeGene acc rm.gene) l) =
    ms.foldl (fun acc rm => mergeGene acc rm.gene) l :=
  foldMergeGene_noop fun rm hm => foldMergeGene_present hm

theorem mergeEdge_noop {l : List (String × String)} {e : String × String}
    (h : e ∈ l) : mergeEdge l e = l := by
  unfold mergeEdge
  rw [if_pos (by simpa using h)]

theorem mergeEdge_mem (l : List (String × String)) (e : String × String) :
    e ∈ mergeEdge l e := by
  unfold mergeEdge
  by_cases hc : l.contains e = true
  · rw [if_pos hc]
    simpa using hc
  · rw [if_neg hc]
    exact List.mem_append_right l (List.mem_singleton.mpr rfl)

theorem mergeEdge_mono {l : List (String × String)} {e e' : String × String}
    (h : e' ∈ l) : e' ∈ mergeEdge l e := by
  unfold mergeEdge
  by_cases hc : l.contains e = true
  · rw [if_pos hc]; exact h
  · rw [if_neg hc]; exact List.mem_append_left _ h

theorem foldMergeEdge_mono {c : β → Bool} {f : β → String × String}
    {e' : String × String} :
    ∀ {bs : List β} {l : List (String × String)}, e' ∈ l →
      e' ∈ bs.foldl (fun acc b => if c b then mergeEdge acc (f b) else acc) l := by
  intro bs
  induction bs with
  | nil => intro l h; exact h
  | cons b rest ih =>
    intro l h
    simp only [List.foldl_cons]
    by_cases hc : c b = true
    · rw [if_pos hc]
      exact ih (mergeEdge_mono h)
    · rw [if_neg hc]
      exact ih h

theorem foldMergeEdge_mem {c : β → Bool} {f : β → String × String}
    {bs : List β} {l : List (String × String)} {b : β} (hb : b ∈ bs)
    (hc : c b = true) :
    f b ∈ bs.foldl (fun acc b => if c b then mergeEdge acc (f b) else acc) l := by
  induction bs generalizing l with
  | nil => exact absurd hb (List.not_mem_nil b)
  | cons b0 rest ih =>
    simp only [List.foldl_cons]
    rcases List.mem_cons.mp hb with h1 | h2
    · subst h1
      rw [if_pos hc]
      exact foldMergeEdge_mono (mergeEdge_mem l (f b))
    · exact ih h2

theorem foldMergeEdge_noop {c : β → Bool} {f : β → String × String} :
    ∀ {bs : List β} {l : List (String × String)},
      (∀ b ∈ bs, c b = true → f b ∈ l) →
      bs.foldl (fun acc b => if c b then mergeEdge acc (f b) else acc) l = l := by
  intro bs
  induction bs with
  | nil => intro l _; rfl
  | cons b rest ih =>
    intro l h
    simp only [List.foldl_cons]
    by_cases hc : c b = true
    · rw [if_pos hc, mergeEdge_noop (h b (List.mem_cons_self b rest) hc)]
      exact ih fun b2 h2 hc2 => h b2 (List.mem_cons_of_mem b h2) hc2
    · rw [if_neg hc]
      exact ih fun b2 h2 hc2 => h b2 (List.mem_cons_of_mem b h2) hc2

theorem mergeRegion_nodup {l : List String} {r : String} (h : l.Nodup) :
    (mergeRegion l r).Nodup := by
  unfold mergeRegion
  by_cases hc : l.contains r = true
  · rw [if_pos hc]; exact h
  · rw [if_neg hc]
    have hr : r ∉ l := by simpa using hc
    simpa [List.nodup_append] using ⟨h, hr⟩

theorem mergeRegion_mono {l : List String} {r r' : String} (h : r' ∈ l) :
    r' ∈ mergeRegion l r := by
  unfold mergeRegion
  by_cases hc : l.contains r = true
  · rw [if_pos hc]; exact h
  · rw [if_neg hc]; exact List.mem_append_left _ h

theorem mergeRegion_mem (l : List String) (r : String) : r ∈ mergeRegion l r := by
  unfold mergeRegion
  by_cases hc : l.contains r = true
  · rw [if_pos hc]; simpa using hc
  · rw [if_neg hc]; exact List.mem_append_right l (List.mem_singleton.mpr rfl)

theorem mergeRegion_mem_iff {l : List String} {r a : String} (hne : a ≠ r) :
    a ∈ mergeRegion l r ↔ a ∈ l := by
  unfold mergeRegion
  by_cases hc : l.contains r = true
  · rw [if_pos hc]
  · rw [if_neg hc]
    simp [hne]

theorem foldMergeRegion_nodup {c : β → Bool} {f : β → String} :
    ∀ {bs : List β} {l : List String}, l.Nodup →
      (bs.foldl (fun acc b => if c b then mergeRegion acc (f b) else acc) l).Nodup := by
  intro bs
  induction bs with
  | nil => intro l h; exact h
  | cons b rest ih =>
    intro l h
    simp only [List.foldl_cons]
    by_cases hc : c b = true
    · rw [if_pos hc]; exact ih (mergeRegion_nodup h)
    · rw [if_neg hc]; exact ih h

theorem foldMergeRegion_mono {c : β → Bool} {f : β → String} {a : String} :
    ∀ {bs : List β} {l : List String}, a ∈ l →
      a ∈ bs.foldl (fun acc b => if c b then mergeRegion acc (f b) else acc) l := by
  intro bs
  induction bs with
  | nil => intro l h; exact h
  | cons b rest ih =>
    intro l h
    simp only [List.foldl_cons]
    by_cases hc : c b = true
    · rw [if_pos hc]; exact ih (mergeRegion_mono h)
    · rw [if_neg hc]; exact ih h

theorem foldMergeRegion_mem {c : β → Bool} {f : β → String} {bs : List β}
    {l : List String} {b : β} (hb : b ∈ bs) (hc : c b = true) :
    f b ∈ bs.foldl (fun acc b => if c b then mergeRegion acc (f b) else acc) l := by
  induction bs generalizing l with
  | nil => exact absurd hb (List.not_mem_nil b)
  | cons b0 rest ih =>
    simp only [List.foldl_cons]
    rcases List.mem_cons.mp hb with h1 | h2
    · subst h1
      rw [if_pos hc]
      exact foldMergeRegion_mono (mergeRegion_mem l (f b))
    · exact ih h2

theorem foldMergeRegion_mem_iff {c : β → Bool} {f : β → String} {a : String} :
    ∀ {bs : List β} {l : List String}, (∀ b ∈ bs, a ≠ f b) →
      (a ∈ bs.foldl (fun acc b => if c b then mergeRegion acc (f b) else acc) l ↔
        a ∈ l) := by
  intro bs
  induction bs with
  | nil => intro l _; exact Iff.rfl
  | cons b rest ih =>
    intro l h
    simp only [List.foldl_cons]
    by_cases hc : c b = true
    · rw [if_pos hc]
      rw [ih fun b2 h2 => h b2 (List.mem_cons_of_mem b h2)]
      exact mergeRegion_mem_iff (h b (List.mem_cons_self b rest))
    · rw [if_neg hc]
      exact ih fun b2 h2 => h b2 (List.mem_cons_of_mem b h2)

/-! ### Component-wise description of the import stages -/

theorem importMutations_spec (ms : List ResearchedMutation) (s : GraphState)
    (indId : String) :
    (importMutations s indId ms).indications = s.indications
    ∧ (importMutations s indId ms).therapies = s.therapies
    ∧ (importMutations s indId ms).regions = s.regions
    ∧ (importMutations s indId ms).epiMetrics = s.epiMetrics
    ∧ (importMutations s indId ms).mutPrevs = s.mutPrevs
    ∧ (importMutations s indId ms).hasTherapy = s.hasTherapy
    ∧ (importMutations s indId ms).mutations =
        ms.foldl (fun acc rm => upsertBy (·.id) rm.id (mutationTarget rm) acc)
          s.mutations
    ∧ (importMutations s indId ms).genes =
        ms.foldl (fun acc rm => mergeGene acc rm.gene) s.genes
    ∧ (importMutations s indId ms).inGene =
        ms.foldl (fun acc rm => mergeEdge acc (rm.id, rm.gene)) s.inGene
    ∧ (importMutations s indId ms).assocWith =
        ms.foldl (fun acc rm =>
          if s.indications.any (fun i => i.id == indId)
          then mergeEdge acc (rm.id, indId) else acc) s.assocWith := by
  induction ms generalizing s with
  | nil => exact ⟨rfl, rfl, rfl, rfl, rfl, rfl, rfl, rfl, rfl, rfl⟩
  | cons rm rest ih =>
    obtain ⟨h1, h2, h3, h4, h5, h6, h7, h8, h9, h10⟩ :=
      ih (importMutationStep s indId rm)
    exact ⟨h1, h2, h3, h4, h5, h6, h7, h8, h9, h10⟩

theorem importTherapies_spec (ts : List ResearchedTherapy) (s : GraphState)
    (indId : String) :
    (importTherapies s indId ts).indications = s.indications
    ∧ (importTherapies s indId ts).mutations = s.mutations
    ∧ (importTherapies s indId ts).genes = s.genes
    ∧ (importTherapies s indId ts).regions = s.regions
    ∧ (importTherapies s indId ts).epiMetrics = s.epiMetrics
    ∧ (importTherapies s indId ts).mutPrevs = s.mutPrevs
    ∧ (importTherapies s indId ts).inGene = s.inGene
    ∧ (importTherapies s indId ts).assocWith = s.assocWith
    ∧ (importTherapies s indId ts).therapies =
        ts.foldl (fun acc t =>
          upsertBy (·.id) ("therapy-" ++ slugify t.name) (therapyTarget t) acc)
          s.therapies
    ∧ (importTherapies s indId ts).hasTherapy =
        ts.foldl (fun acc t =>
          if s.indications.any (fun i => i.id == indId)
          then mergeEdge acc (indId, "therapy-" ++ slugify t.name) else acc)
          s.hasTherapy := by
  induction ts generalizing s with
  | nil => exact ⟨rfl, rfl, rfl, rfl, rfl, rfl, rfl, rfl, rfl, rfl⟩
  | cons t rest ih =>
    obtain ⟨h1, h2, h3, h4, h5, h6, h7, h8, h9, h10⟩ :=
      ih (importTherapyStep s indId t)
    exact ⟨h1, h2, h3, h4, h5, h6, h7, h8, h9, h10⟩

/-- The EpidemiologyMetric node created for one bundle entry. -/
def epiNodeOf (e : EpidemiologyEntry) : EpidemiologyMetricNode :=
  { id := e.id, mtype := e.mtype, value := e.value, unit := e.unit
    year := e.year, source := e.source, indicationId := e.indicationId
    region := e.region }

/-- The admission test of the epidemiology import query: both `MATCH`es
succeed. -/
def epiCond (s : GraphState) (e : EpidemiologyEntry) : Bool :=
  (s.indications.any fun i => i.id == e.indicationId) && s.regions.contains e.region

theorem importEpis_spec (es : List EpidemiologyEntry) (s : GraphState) :
    (importEpis s es).indications = s.indications
    ∧ (importEpis s es).mutations = s.mutations
    ∧ (importEpis s es).genes = s.genes
    ∧ (importEpis s es).therapies = s.therapies
    ∧ (importEpis s es).regions = s.regions
    ∧ (importEpis s es).mutPrevs = s.mutPrevs
    ∧ (importEpis s es).epiMetrics =
        s.epiMetrics ++ (es.filter (epiCond s)).map epiNodeOf := by
  induction es generalizing s with
  | nil => exact ⟨rfl, rfl, rfl, rfl, rfl, rfl, by simp [importEpis]⟩
  | cons e rest ih =>
    obtain ⟨h1, h2, h3, h4, h5, h6, h7⟩ := ih (importEpiStep s e)
    have hstep : (importEpiStep s e).indications = s.indications ∧
        (importEpiStep s e).mutations = s.mutations ∧
        (importEpiStep s e).genes = s.genes ∧
        (importEpiStep s e).therapies = s.therapies ∧
        (importEpiStep s e).regions = s.regions ∧
        (importEpiStep s e).mutPrevs = s.mutPrevs := by
      unfold importEpiStep
      by_cases hc : ((s.indications.any fun i => i.id == e.indicationId)
          && s.regions.contains e.region) = true
      · rw [if_pos hc]
        exact ⟨rfl, rfl, rfl, rfl, rfl, rfl⟩
      · rw [if_neg hc]
        exact ⟨rfl, rfl, rfl, rfl, rfl, rfl⟩
    have hcond : epiCond (importEpiStep s e) = epiCond s := by
      funext x
      unfold epiCond
      rw [hstep.1, hstep.2.2.2.2.1]
    refine ⟨h1.trans hstep.1, h2.trans hstep.2.1, h3.trans hstep.2.2.1,
      h4.trans hstep.2.2.2.1, h5.trans hstep.2.2.2.2.1,
      h6.trans hstep.2.2.2.2.2, ?_⟩
    show (importEpis (importEpiStep s e) rest).epiMetrics =
      s.epiMetrics ++ ((e :: rest).filter (epiCond s)).map epiNodeOf
    rw [h7, hcond]
    unfold importEpiStep
    by_cases hc : ((s.indications.any fun i => i.id == e.indicationId)
        && s.regions.contains e.region) = true
    · rw [if_pos hc]
      have hce : epiCond s e = true := hc
      simp only [List.filter_cons, hce, if_true, List.map_cons]
      simp [epiNodeOf]
    · rw [if_neg hc]
      have hce : epiCond s e = false := by
        have := hc
        unfold epiCond
        simpa using hc
      simp only [List.filter_cons, hce, Bool.false_eq_true, if_false]

/-- The MutationPrevalence node created for one bundle entry. -/
def mpNodeOf (p : MutationPrevalenceEntry) : MutationPrevalenceNode :=
  { id := p.id, mutationId := p.mutationId, indicationId := p.indicationId
    percentageOfPatients := p.percentageOfPatients, year := p.year
    source := p.source, region := p.region }

/-- The admission test of the mutation-prevalence import query. -/
def mpCond (s : GraphState) (p : MutationPrevalenceEntry) : Bool :=
  (s.mutations.any fun m => m.id == p.mutationId)
    && (s.indications.any fun i => i.id == p.indicationId)

theorem importMps_spec (ps : List MutationPrevalenceEntry) (s : GraphState) :
    (importMps s ps).indications = s.indications
    ∧ (importMps s ps).mutations = s.mutations
    ∧ (importMps s ps).genes = s.genes
    ∧ (importMps s ps).therapies = s.therapies
    ∧ (importMps s ps).epiMetrics = s.epiMetrics
    ∧ (importMps s ps).mutPrevs =
        s.mutPrevs ++ (ps.filter (mpCond s)).map mpNodeOf
    ∧ (importMps s ps).regions =
        ps.foldl (fun acc p =>
          if mpCond s p then mergeRegion acc p.region else acc) s.regions := by
  induction ps generalizing s with
  | nil => exact ⟨rfl, rfl, rfl, rfl, rfl, by simp [importMps], rfl⟩
  | cons p rest ih =>
    obtain ⟨h1, h2, h3, h4, h5, h6, h7⟩ := ih (importMpStep s p)
    have hstep : (importMpStep s p).indications = s.indications ∧
        (importMpStep s p).mutations = s.mutations ∧
        (importMpStep s p).genes = s.genes ∧
        (importMpStep s p).therapies = s.therapies ∧
        (importMpStep s p).epiMetrics = s.epiMetrics := by
      unfold importMpStep
      by_cases hc : ((s.mutations.any fun m => m.id == p.mutationId)
          && s.indications.any fun i => i.id == p.indicationId) = true
      · rw [if_pos hc]
        exact ⟨rfl, rfl, rfl, rfl, rfl⟩
      · rw [if_neg hc]
        exact ⟨rfl, rfl, rfl, rfl, rfl⟩
    have hcond : mpCond (importMpStep s p) = mpCond s := by
      funext x
      unfold mpCond
      rw [hstep.1, hstep.2.1]
    refine ⟨h1.trans hstep.1, h2.trans hstep.2.1, h3.trans hstep.2.2.1,
      h4.trans hstep.2.2.2.1, h5.trans hstep.2.2.2.2, ?_, ?_⟩
    · show (importMps (importMpStep s p) rest).mutPrevs =
        s.mutPrevs ++ ((p :: rest).filter (mpCond s)).map mpNodeOf
      rw [h6, hcond]
      unfold importMpStep
      by_cases hc : ((s.mutations.any fun m => m.id == p.mutationId)
          && s.indications.any fun i => i.id == p.indicationId) = true
      · rw [if_pos hc]
        have hce : mpCond s p = true := hc
        simp only [List.filter_cons, hce, if_true, List.map_cons]
        simp [mpNodeOf]
      · rw [if_neg hc]
        have hce : mpCond s p = false := by
          unfold mpCond
          simpa using hc
        simp only [List.filter_cons, hce, Bool.false_eq_true, if_false]
    · show (importMps (importMpStep s p) rest).regions =
        (p :: rest).foldl (fun acc p =>
          if mpCond s p then mergeRegion acc p.region else acc) s.regions
      rw [h7, hcond]
      simp only [List.foldl_cons]
      unfold importMpStep
      by_cases hc : ((s.mutations.any fun m => m.id == p.mutationId)
          && s.indications.any fun i => i.id == p.indicationId) = true
      · rw [if_pos hc]
        have hce : mpCond s p = true := hc
        simp only [hce, if_true]
      · rw [if_neg hc]
        have hce : mpCond s p = false := by
          unfold mpCond
          simpa using hc
        simp only [hce, Bool.false_eq_true, if_false]

theorem foldUpsert_present_mono {key : α → String} {keyOf : β → String}
    {valOf : β → α} (hkv : ∀ b, key (valOf b) = keyOf b) {k : String} :
    ∀ {bs : List β} {l : List α}, (∃ x ∈ l, key x = k) →
      ∃ x ∈ bs.foldl (fun acc b => upsertBy key (keyOf b) (valOf b) acc) l,
        key x = k := by
  intro bs
  induction bs with
  | nil => intro l h; exact h
  | cons b rest ih =>
    intro l h
    simp only [List.foldl_cons]
    exact ih (upsertBy_preserve_present (hkv b) h)

theorem foldUpsert_key_of_mem (key : α → String) (keyOf : β → String)
    (valOf : β → α) (hkv : ∀ b, key (valOf b) = keyOf b) {bs : List β}
    {l : List α} {b0 : β} (hb : b0 ∈ bs) :
    ∃ x ∈ bs.foldl (fun acc b => upsertBy key (keyOf b) (valOf b) acc) l,
      key x = keyOf b0 := by
  induction bs generalizing l with
  | nil => exact absurd hb (List.not_mem_nil b0)
  | cons b rest ih =>
    simp only [List.foldl_cons]
    rcases List.mem_cons.mp hb with h1 | h2
    · subst h1
      exact foldUpsert_present_mono hkv (upsertBy_key_present l (hkv b0))
    · exact ih h2

/-- C5 (counterexample): importing a bundle whose epidemiology entry names a
Region absent from the graph creates neither the Region node nor the metric —
the epidemiology import `MATCH`es the Region instead of `MERGE`-ing it, so
the entry is silently dropped. -/
theorem c5_region_lazy_counterexample :
    (importResearchedIndication emptyState c5Bundle).regions = []
    ∧ (importResearchedIndication emptyState c5Bundle).epiMetrics = [] := by
  constructor <;> rfl

/-- C5 (amended): a Region node is created at most once per name (the region
registry stays duplicate-free), but lazily only by MutationPrevalence
entries; an EpidemiologyMetric entry is stored and linked only when its
Region already exists.  Every prevalence entry referencing a bundle mutation
and the bundle indication gets its Region node and its stored record; every
epidemiology entry whose Region pre-exists gets its stored record. -/
theorem c5_region_creation_amended (s : GraphState) (b : ResearchBundle)
    (hnd : s.regions.Nodup) :
    (importResearchedIndication s b).regions.Nodup
    ∧ (∀ e ∈ b.epidemiology, e.region ∈ s.regions →
        e.indicationId = b.indication.id →
        ∃ nd ∈ (importResearchedIndication s b).epiMetrics,
          nd.id = e.id ∧ nd.indicationId = e.indicationId ∧
          nd.region = e.region ∧ nd.value = e.value)
    ∧ ∀ p ∈ b.mutationPrevalence, p.mutationId ∈ b.mutations.map (·.id) →
        p.indicationId = b.indication.id →
        p.region ∈ (importResearchedIndication s b).regions
        ∧ ∃ nd ∈ (importResearchedIndication s b).mutPrevs,
            nd.id = p.id ∧ nd.region = p.region := by
  have hs1 : (importIndication s b.indication).regions = s.regions := rfl
  have hs1e : (importIndication s b.indication).epiMetrics = s.epiMetrics := rfl
  have hs1m : (importIndication s b.indication).mutations = s.mutations := rfl
  obtain ⟨hm1, hm2, hm3, hm4, hm5, hm6, hm7, hm8, hm9, hm10⟩ :=
    importMutations_spec b.mutations (importIndication s b.indication)
      b.indication.id
  obtain ⟨ht1, ht2, ht3, ht4, ht5, ht6, ht7, ht8, ht9, ht10⟩ :=
    importTherapies_spec b.therapies
      (importMutations (importIndication s b.indication) b.indication.id
        b.mutations) b.indication.id
  obtain ⟨he1, he2, he3, he4, he5, he6, he7⟩ :=
    importEpis_spec b.epidemiology
      (importTherapies
        (importMutations (importIndication s b.indication) b.indication.id
          b.mutations) b.indication.id b.therapies)
  obtain ⟨hp1, hp2, hp3, hp4, hp5, hp6, hp7⟩ :=
    importMps_spec b.mutationPrevalence
      (importEpis
        (importTherapies
          (importMutations (importIndication s b.indication) b.indication.id
            b.mutations) b.indication.id b.therapies) b.epidemiology)
  have hregs4 :
      (importEpis
        (importTherapies
          (importMutations (importIndication s b.indication) b.indication.id
            b.mutations) b.indication.id b.therapies) b.epidemiology).regions =
        s.regions := by
    rw [he5, ht4, hm3, hs1]
  have hinds4 :
      (importEpis
        (importTherapies
          (importMutations (importIndication s b.indication) b.indication.id
            b.mutations) b.indication.id b.therapies) b.epidemiology).indications =
        upsertBy (·.id) b.indication.id (indicationTarget b.indication)
          s.indications := by
    rw [he1, ht1, hm1]
    rfl
  have hindpres : ∃ x ∈ upsertBy (·.id) b.indication.id
      (indicationTarget b.indication) s.indications, x.id = b.indication.id :=
    upsertBy_key_present s.indications rfl
  refine ⟨?_, ?_, ?_⟩
  · show (importMps _ b.mutationPrevalence).regions.Nodup
    rw [hp7, hregs4]
    exact foldMergeRegion_nodup hnd
  · intro e he hereg heid
    have hcond : epiCond
        (importTherapies
          (importMutations (importIndication s b.indication) b.indication.id
            b.mutations) b.indication.id b.therapies) e = true := by
      unfold epiCond
      rw [ht1, hm1, ht4, hm3, hs1]
      rw [Bool.and_eq_true]
      constructor
      · apply List.any_eq_true.mpr
        obtain ⟨x, hx, hkx⟩ := hindpres
        exact ⟨x, hx, by simp [hkx, heid]⟩
      · simpa using hereg
    refine ⟨epiNodeOf e, ?_, rfl, rfl, rfl, rfl⟩
    show epiNodeOf e ∈ (importMps _ b.mutationPrevalence).epiMetrics
    rw [hp5, he7]
    exact List.mem_append_right _
      (List.mem_map_of_mem _ (List.mem_filter.mpr ⟨he, hcond⟩))
  · intro p hp hpmut hpid
    have hmutpres : ∃ x ∈ (importEpis
        (importTherapies
          (importMutations (importIndication s b.indication) b.indication.id
            b.mutations) b.indication.id b.therapies) b.epidemiology).mutations,
        x.id = p.mutationId := by
      rw [he2, ht2, hm7, hs1m]
      obtain ⟨rm, hrm, hrmid⟩ := List.mem_map.mp hpmut
      have := foldUpsert_key_of_mem (fun x => MutationNode.id x)
        (fun rm => rm.id) mutationTarget (fun b2 => rfl) hrm (l := s.mutations)
      obtain ⟨x, hx, hkx⟩ := this
      exact ⟨x, hx, hkx.trans hrmid⟩
    have hcond : mpCond (importEpis
        (importTherapies
          (importMutations (importIndication s b.indication) b.indication.id
            b.mutations) b.indication.id b.therapies) b.epidemiology) p = true := by
      unfold mpCond
      rw [Bool.and_eq_true]
      constructor
      · apply List.any_eq_true.mpr
        obtain ⟨x, hx, hkx⟩ := hmutpres
        exact ⟨x, hx, by simp [hkx]⟩
      · apply List.any_eq_true.mpr
        rw [hinds4]
        obtain ⟨x, hx, hkx⟩ := hindpres
        exact ⟨x, hx, by simp [hkx, hpid]⟩
    constructor
    · show p.region ∈ (importMps _ b.mutationPrevalence).regions
      rw [hp7]
      exact foldMergeRegion_mem hp hcond
    · refine ⟨mpNodeOf p, ?_, rfl, rfl⟩
      show mpNodeOf p ∈ (importMps _ b.mutationPrevalence).mutPrevs
      rw [hp6]
      exact List.mem_append_right _
        (List.mem_map_of_mem _ (List.mem_filter.mpr ⟨hp, hcond⟩))

/-- Witness: the amended C5 theorem applied to a seeded-regions graph and a
generator-shaped bundle. -/
theorem c5_region_creation_amended_witness :
    regionsOnlyState.regions.Nodup ∧
    (importResearchedIndication regionsOnlyState smallBundle).regions.Nodup ∧
    (∃ nd ∈ (importResearchedIndication regionsOnlyState smallBundle).epiMetrics,
      nd.id = "epi-ind-x-prev-usa" ∧ nd.indicationId = "ind-x" ∧
      nd.region = "USA" ∧ nd.value = 50000) ∧
    "GLOBAL" ∈ (importResearchedIndication regionsOnlyState smallBundle).regions := by
  have h := c5_region_creation_amended regionsOnlyState smallBundle (by decide)
  refine ⟨by decide, h.1, ?_, ?_⟩
  · exact h.2.1 ⟨"epi-ind-x-prev-usa", "ind-x", "USA", "PREVALENCE", 50000,
      "patients", 2024, "Deep_Research"⟩ (by decide) (by decide) rfl
  · exact (h.2.2 ⟨"mp-mut-tp53-mutation-ind-x", "mut-tp53-mutation", "ind-x", 40,
      "GLOBAL", "Deep_Research", 2024⟩ (by decide) (by decide) rfl).1

theorem import_full_components (s : GraphState) (b : ResearchBundle) :
    (importResearchedIndication s b).indications =
      upsertBy (·.id) b.indication.id (indicationTarget b.indication)
        s.indications
    ∧ (importResearchedIndication s b).mutations =
      b.mutations.foldl
        (fun acc rm => upsertBy (·.id) rm.id (mutationTarget rm) acc) s.mutations
    ∧ (importResearchedIndication s b).genes =
      b.mutations.foldl (fun acc rm => mergeGene acc rm.gene) s.genes
    ∧ (importResearchedIndication s b).therapies =
      b.therapies.foldl (fun acc t =>
        upsertBy (·.id) ("therapy-" ++ slugify t.name) (therapyTarget t) acc)
        s.therapies
    ∧ (importResearchedIndication s b).epiMetrics =
      s.epiMetrics ++ (b.epidemiology.filter fun e =>
        ((upsertBy (·.id) b.indication.id (indicationTarget b.indication)
          s.indications).any fun i => i.id == e.indicationId)
        && s.regions.contains e.region).map epiNodeOf
    ∧ (importResearchedIndication s b).mutPrevs =
      s.mutPrevs ++ (b.mutationPrevalence.filter fun p =>
        ((b.mutations.foldl
          (fun acc rm => upsertBy (·.id) rm.id (mutationTarget rm) acc)
          s.mutations).any fun m => m.id == p.mutationId)
        && ((upsertBy (·.id) b.indication.id (indicationTarget b.indication)
          s.indications).any fun i => i.id == p.indicationId)).map mpNodeOf
    ∧ (importResearchedIndication s b).regions =
      b.mutationPrevalence.foldl (fun acc p =>
        if ((b.mutations.foldl
            (fun acc2 rm => upsertBy (·.id) rm.id (mutationTarget rm) acc2)
            s.mutations).any fun m => m.id == p.mutationId)
          && ((upsertBy (·.id) b.indication.id (indicationTarget b.indication)
            s.indications).any fun i => i.id == p.indicationId)
        then mergeRegion acc p.region else acc) s.regions := by
  obtain ⟨hm1, hm2, hm3, hm4, hm5, hm6, hm7, hm8, hm9, hm10⟩ :=
    importMutations_spec b.mutations (importIndication s b.indication)
      b.indication.id
  obtain ⟨ht1, ht2, ht3, ht4, ht5, ht6, ht7, ht8, ht9, ht10⟩ :=
    importTherapies_spec b.therapies
      (importMutations (importIndication s b.indication) b.indication.id
        b.mutations) b.indication.id
  obtain ⟨he1, he2, he3, he4, he5, he6, he7⟩ :=
    importEpis_spec b.epidemiology
      (importTherapies
        (importMutations (importIndication s b.indication) b.indication.id
          b.mutations) b.indication.id b.therapies)
  obtain ⟨hp1, hp2, hp3, hp4, hp5, hp6, hp7⟩ :=
    importMps_spec b.mutationPrevalence
      (importEpis
        (importTherapies
          (importMutations (importIndication s b.indication) b.indication.id
            b.mutations) b.indication.id b.therapies) b.epidemiology)
  have hindeq :
      (importEpis
        (importTherapies
          (importMutations (importIndication s b.indication) b.indication.id
            b.mutations) b.indication.id b.therapies) b.epidemiology).indications =
      upsertBy (·.id) b.indication.id (indicationTarget b.indication)
        s.indications := by
    rw [he1, ht1, hm1]; rfl
  have hmuteq :
      (importEpis
        (importTherapies
          (importMutations (importIndication s b.indication) b.indication.id
            b.mutations) b.indication.id b.therapies) b.epidemiology).mutations =
      b.mutations.foldl
        (fun acc rm => upsertBy (·.id) rm.id (mutationTarget rm) acc)
        s.mutations := by
    rw [he2, ht2, hm7]; rfl
  have hregeq :
      (importEpis
        (importTherapies
          (importMutations (importIndication s b.indication) b.indication.id
            b.mutations) b.indication.id b.therapies) b.epidemiology).regions =
      s.regions := by
    rw [he5, ht4, hm3]; rfl
  refine ⟨?_, ?_, ?_, ?_, ?_, ?_, ?_⟩
  · show (importMps _ b.mutationPrevalence).indications = _
    rw [hp1, hindeq]
  · show (importMps _ b.mutationPrevalence).mutations = _
    rw [hp2, hmuteq]
  · show (importMps _ b.mutationPrevalence).genes = _
    rw [hp3, he3, ht3, hm8]; rfl
  · show (importMps _ b.mutationPrevalence).therapies = _
    rw [hp4, he4, ht9, hm2]; rfl
  · show (importMps _ b.mutationPrevalence).epiMetrics = _
    rw [hp5, he7, ht5, hm4]
    have : epiCond (importTherapies
        (importMutations (importIndication s b.indication) b.indication.id
          b.mutations) b.indication.id b.therapies) = fun e =>
        ((upsertBy (·.id) b.indication.id (indicationTarget b.indication)
          s.indications).any fun i => i.id == e.indicationId)
        && s.regions.contains e.region := by
      funext e
      unfold epiCond
      rw [ht1, hm1, ht4, hm3]
      rfl
    rw [this]
    rfl
  · show (importMps _ b.mutationPrevalence).mutPrevs = _
    rw [hp6, he6, ht6, hm5]
    have : mpCond (importEpis
        (importTherapies
          (importMutations (importIndication s b.indication) b.indication.id
            b.mutations) b.indication.id b.therapies) b.epidemiology) = fun p =>
        ((b.mutations.foldl
          (fun acc rm => upsertBy (·.id) rm.id (mutationTarget rm) acc)
          s.mutations).any fun m => m.id == p.mutationId)
        && ((upsertBy (·.id) b.indication.id (indicationTarget b.indication)
          s.indications).any fun i => i.id == p.indicationId) := by
      funext p
      unfold mpCond
      rw [hmuteq, hindeq]
    rw [this]
    rfl
  · show (importMps _ b.mutationPrevalence).regions = _
    rw [hp7, hregeq]
    have : mpCond (importEpis
        (importTherapies
          (importMutations (importIndication s b.indication) b.indication.id
            b.mutations) b.indication.id b.therapies) b.epidemiology) = fun p =>
        ((b.mutations.foldl
          (fun acc2 rm => upsertBy (·.id) rm.id (mutationTarget rm) acc2)
          s.mutations).any fun m => m.id == p.mutationId)
        && ((upsertBy (·.id) b.indication.id (indicationTarget b.indication)
          s.indications).any fun i => i.id == p.indicationId) := by
      funext p
      unfold mpCond
      rw [hmuteq, hindeq]
    rw [this]

/-- C2: re-importing the identical bundle is idempotent on Indication,
Mutation, Gene and Therapy nodes — the node lists, hence node counts and
every property value, are unchanged by the second run — while the
append-only EpidemiologyMetric and MutationPrevalence nodes are created
again: each run adds the same number, so starting from a graph with none of
them the counts double.  Hypotheses: the bundle's mutation ids and derived
therapy ids are duplicate-free (generated bundles are) and no epidemiology
region name coincides with a prevalence region name (generated bundles use
USA/EU/APAC vs GLOBAL). -/
theorem c2_import_idempotent (s : GraphState) (b : ResearchBundle)
    (hndm : (b.mutations.map (·.id)).Nodup)
    (hndt : (b.therapies.map fun t => "therapy-" ++ slugify t.name).Nodup)
    (hdisj : ∀ e ∈ b.epidemiology, ∀ p ∈ b.mutationPrevalence,
      e.region ≠ p.region) :
    (importResearchedIndication (importResearchedIndication s b) b).indications =
      (importResearchedIndication s b).indications
    ∧ (importResearchedIndication (importResearchedIndication s b) b).mutations =
      (importResearchedIndication s b).mutations
    ∧ (importResearchedIndication (importResearchedIndication s b) b).genes =
      (importResearchedIndication s b).genes
    ∧ (importResearchedIndication (importResearchedIndication s b) b).therapies =
      (importResearchedIndication s b).therapies
    ∧ (importResearchedIndication (importResearchedIndication s b) b).epiMetrics.length
        + s.epiMetrics.length =
      2 * (importResearchedIndication s b).epiMetrics.length
    ∧ (importResearchedIndication (importResearchedIndication s b) b).mutPrevs.length
        + s.mutPrevs.length =
      2 * (importResearchedIndication s b).mutPrevs.length := by
  obtain ⟨c1i, c1m, c1g, c1t, c1e, c1p, c1r⟩ := import_full_components s b
  obtain ⟨c2i, c2m, c2g, c2t, c2e, c2p, c2r⟩ :=
    import_full_components (importResearchedIndication s b) b
  have hidem_ind : upsertBy (·.id) b.indication.id
      (indicationTarget b.indication)
      (upsertBy (·.id) b.indication.id (indicationTarget b.indication)
        s.indications) =
      upsertBy (·.id) b.indication.id (indicationTarget b.indication)
        s.indications := upsertBy_idem rfl
  have hidem_mut : b.mutations.foldl
      (fun acc rm => upsertBy (·.id) rm.id (mutationTarget rm) acc)
      (b.mutations.foldl
        (fun acc rm => upsertBy (·.id) rm.id (mutationTarget rm) acc)
        s.mutations) =
      b.mutations.foldl
        (fun acc rm => upsertBy (·.id) rm.id (mutationTarget rm) acc)
        s.mutations :=
    foldUpsert_idem (fun x : MutationNode => x.id)
      (fun rm : ResearchedMutation => rm.id) mutationTarget (fun _ => rfl) hndm
  refine ⟨?_, ?_, ?_, ?_, ?_, ?_⟩
  · rw [c2i, c1i, hidem_ind]
  · rw [c2m, c1m, hidem_mut]
  · rw [c2g, c1g, foldMergeGene_idem]
  · rw [c2t, c1t, foldUpsert_idem (fun x : TherapyNode => x.id)
      (fun t : ResearchedTherapy => "therapy-" ++ slugify t.name)
      therapyTarget (fun _ => rfl) hndt]
  · rw [c2e, c1i, hidem_ind]
    have hfeq : b.epidemiology.filter (fun e =>
        ((upsertBy (·.id) b.indication.id (indicationTarget b.indication)
          s.indications).any fun i => i.id == e.indicationId)
        && (importResearchedIndication s b).regions.contains e.region) =
        b.epidemiology.filter (fun e =>
        ((upsertBy (·.id) b.indication.id (indicationTarget b.indication)
          s.indications).any fun i => i.id == e.indicationId)
        && s.regions.contains e.region) := by
      apply List.filter_congr
      intro e he
      have hmem : e.region ∈ (importResearchedIndication s b).regions ↔
          e.region ∈ s.regions := by
        rw [c1r]
        exact foldMergeRegion_mem_iff fun p hp => hdisj e he p hp
      have hc1 : (importResearchedIndication s b).regions.contains e.region =
          decide (e.region ∈ (importResearchedIndication s b).regions) := by
        simp
      have hc2 : s.regions.contains e.region =
          decide (e.region ∈ s.regions) := by
        simp
      rw [hc1, hc2, decide_eq_decide.mpr hmem]
    rw [hfeq, c1e]
    simp only [List.length_append, List.length_map]
    ring
  · rw [c2p, c1m, hidem_mut, c1i, hidem_ind, c1p]
    simp only [List.length_append, List.length_map]
    ring
/-- C1: getTopIndications does not return the sum of the indication's metric
values in the requested regions.  On `crossBugState` with regions
{USA, EU} the metric-value sums are 150 (prevalence) and 30 (incidence), but
the service returns 300 and 60: the two chained `OPTIONAL MATCH` clauses
cross-multiply, so each prevalence row is counted once per incidence row and
vice versa. -/
theorem c1_totals_cross_product_bug :
    (getTopIndications crossBugState 10 ["USA", "EU"] .prevalence .desc).map
        (fun r => (r.totalPrevalence, r.totalIncidence)) = [(300, 60)]
    ∧ ((crossBugState.epiMetrics.filter fun e =>
        e.mtype == "PREVALENCE" && ["USA", "EU"].contains e.region).map
          (·.value)).sum = 150
    ∧ ((crossBugState.epiMetrics.filter fun e =>
        e.mtype == "INCIDENCE" && ["USA", "EU"].contains e.region).map
          (·.value)).sum = 30 := by
  refine ⟨?_, ?_, ?_⟩ <;>
  · simp [getTopIndications, indicationRow, prevMetricsOf, incMetricsOf,
      crossProd, optRows, sortOrd, insertOrd, indicationLe, roundOrZero, rankMap,
      crossBugState, emptyState, mkInd, mkPrev, mkInc, round_eq]
    try norm_num

/-- C3: getAllMutations does not return the sum over (indication, percentage)
pairs of region-restricted prevalence total times percentage / 100.  On
`mutBugState` that sum is 100 · 50 / 100 = 50, but the service returns 100:
the prevalence term is added once per incidence metric row of the same
indication (and would also be multiplied by every therapeutic-actionability
row), contradicting the formula documented in the service's own comments. -/
theorem c3_mutation_estimates_cross_product_bug :
    (getAllMutations mutBugState 50 .actionability .desc ["USA", "EU"]).map
        (fun r => (r.estimatedPatients, r.estimatedNewCases)) = [(100, 15)]
    ∧ ((mutBugState.epiMetrics.filter fun e =>
        e.mtype == "PREVALENCE" && ["USA", "EU"].contains e.region).map
          (·.value)).sum * 50 / 100 = 50 := by
  constructor <;>
  · simp [getAllMutations, mutationRowsSorted, mutationRow, mutationGenePairs,
      taRowsOf, mutPrevRowsOf, prevMetricsOf, incMetricsOf, crossProd, optRows,
      sortOrd, insertOrd, mutationLe, lexLeN, rankMap, mutBugState, emptyState,
      mkInd, mkPrev, mkInc, round_eq]
    try norm_num

/-- C6: two indications with equal total prevalence are not returned in
ascending name order — the getTopIndications `ORDER BY` has no name
tie-break, so ties keep store order, here B before A under the descending
prevalence sort. -/
theorem c6_tie_break_counterexample :
    (getTopIndications tieState 10 ["USA"] .prevalence .desc).map (·.name) =
      ["B", "A"]
    ∧ (getTopIndications tieState 10 ["USA"] .prevalence .desc).map
        (·.totalPrevalence) = [100, 100] := by
  constructor <;>
  · simp [getTopIndications, indicationRow, prevMetricsOf, incMetricsOf,
      crossProd, optRows, sortOrd, insertOrd, indicationLe, roundOrZero,
      rankMap, tieState, emptyState, mkInd, mkPrev, round_eq]
    try norm_num

/-- C9: passing an empty region list is not equivalent to passing the full
{USA, EU, APAC} set.  With one USA prevalence metric of 100, the empty list
matches no metric and yields total 0, while the full set yields 100: the
TypeScript default only applies to an omitted argument, never to `[]`. -/
theorem c9_empty_regions_counterexample :
    getTopIndications oneMetricState 10 [] .prevalence .desc ≠
      getTopIndications oneMetricState 10 ["USA", "EU", "APAC"] .prevalence .desc
    ∧ (getTopIndications oneMetricState 10 [] .prevalence .desc).map
        (·.totalPrevalence) = [0]
    ∧ (getTopIndications oneMetricState 10 ["USA", "EU", "APAC"] .prevalence
        .desc).map (·.totalPrevalence) = [100] := by
  refine ⟨?_, ?_, ?_⟩ <;>
  · simp [getTopIndications, indicationRow, prevMetricsOf, incMetricsOf,
      crossProd, optRows, sortOrd, insertOrd, indicationLe, roundOrZero,
      rankMap, oneMetricState, emptyState, mkInd, mkPrev, round_eq,
      IndicationSummary.mk.injEq]


/-- Witness: the C2 theorem applied to a generator-shaped bundle over the
seeded-regions graph; its hypotheses hold for the concrete bundle. -/
theorem c2_import_idempotent_witness :
    (smallBundle.mutations.map (·.id)).Nodup
    ∧ (smallBundle.therapies.map fun t => "therapy-" ++ slugify t.name).Nodup
    ∧ (∀ e ∈ smallBundle.epidemiology, ∀ p ∈ smallBundle.mutationPrevalence,
        e.region ≠ p.region)
    ∧ (importResearchedIndication
        (importResearchedIndication regionsOnlyState smallBundle)
        smallBundle).mutations =
      (importResearchedIndication regionsOnlyState smallBundle).mutations
    ∧ (importResearchedIndication
        (importResearchedIndication regionsOnlyState smallBundle)
        smallBundle).epiMetrics.length
        + regionsOnlyState.epiMetrics.length =
      2 * (importResearchedIndication regionsOnlyState smallBundle).epiMetrics.length := by
  have h := c2_import_idempotent regionsOnlyState smallBundle (by decide)
    (by decide) (by decide)
  exact ⟨by decide, by decide, by decide, h.2.1, h.2.2.2.2.1⟩

end MiipaModel
